import Mathlib

/-!
# Verification of the `skt` pipeline orchestrator (`skt/executable.py`)

This file gives a shallow embedding of the persisted-state pipeline
orchestrator of the `skt` kernel-CI tool: the state store
(`save_state`, `load_config`), the stage-execution harness (the `junit`
decorator), and the stage commands (`cmd_merge`, `cmd_build`,
`cmd_publish`, `cmd_run`, `cmd_report`, `cmd_cleanup`, `cmd_all`, `main`).

External collaborators (KernelTree, KernelBuilder, publisher, runner,
reporter) live outside the embedded file; their observable behaviour is
supplied through explicit environment records, following the collaborator
contracts, and every call to them is logged in a trace so that theorems
can speak about which collaborator operations a stage attempted.
-/

namespace Skt

/-- Python values as stored in the `cfg` dictionary: `None`, strings,
integers, booleans, lists of strings, sets of strings (modelled as
duplicate-free lists in insertion order), and lists of string lists
(the shape of `merge_ref`).  These are the only shapes the orchestrator
ever stores. -/
inductive Val where
  | vnone : Val
  | vstr (s : String) : Val
  | vint (n : Int) : Val
  | vbool (b : Bool) : Val
  | vstrs (xs : List String) : Val
  | vset (xs : List String) : Val
  | vrefs (xs : List (List String)) : Val
deriving Repr, DecidableEq

/-- Python truthiness of a `Val` (`bool(v)`): `None`, `""`, `0`, `False`
and empty collections are falsy. -/
def Val.truthy : Val → Bool
  | .vnone => false
  | .vstr s => !s.isEmpty
  | .vint n => n != 0
  | .vbool b => b
  | .vstrs xs => !xs.isEmpty
  | .vset xs => !xs.isEmpty
  | .vrefs xs => !xs.isEmpty

/-- The `cfg` dictionary: an association list from string keys to values.
Lookups take the first binding; `Cfg.set` replaces it in place. -/
abbrev Cfg := List (String × Val)

/-- `cfg.get(k)`: `None` when the key is absent (Python `dict.get`). -/
def Cfg.get : Cfg → String → Val
  | [], _ => .vnone
  | kv :: rest, k => if kv.1 = k then kv.2 else Cfg.get rest k

/-- `k in cfg`: dictionary key containment (distinct from truthiness). -/
def Cfg.hasKey : Cfg → String → Bool
  | [], _ => false
  | kv :: rest, k => if kv.1 = k then true else Cfg.hasKey rest k

/-- `cfg[k] = v`: replace the first binding of `k`, or append a new one. -/
def Cfg.set (cfg : Cfg) (k : String) (v : Val) : Cfg :=
  match cfg with
  | [] => [(k, v)]
  | kv :: rest =>
    if kv.1 == k then (k, v) :: rest else kv :: Cfg.set rest k v

/-- The rc file as far as the orchestrator touches it: whether a `state`
section exists and its entries (`ConfigParser` keeps insertion order). -/
structure IniFile where
  hasStateSection : Bool
  stateSection : List (String × Val)
deriving Repr, DecidableEq

/-- `config.set('state', k, v)` after `add_section` if needed. -/
def IniFile.setState (f : IniFile) (k : String) (v : Val) : IniFile :=
  { hasStateSection := true, stateSection := Cfg.set f.stateSection k v }

/-- Lookup in the persisted `state` section. -/
def IniFile.getState (f : IniFile) (k : String) : Val :=
  Cfg.get f.stateSection k

/-- One JUnit test case (`junit_xml.TestCase`): name, class name, the
failure messages added by `add_failure_info`, the stdout payload (the
JSON dump of `cfg`, modelled as the snapshot itself), and elapsed time. -/
structure TestCase where
  name : String
  classname : String
  failures : List String
  stdoutSnap : Option Cfg
  elapsed : Int
deriving Repr, DecidableEq

/-- `tc.add_failure_info(msg)`. -/
def TestCase.addFailureInfo (tc : TestCase) (msg : String) : TestCase :=
  { tc with failures := tc.failures ++ [msg] }

/-- `tc.is_failure()`: true once failure info has been recorded. -/
def TestCase.isFailure (tc : TestCase) : Bool :=
  !tc.failures.isEmpty

/-- Result of a single collaborator call: a Python return value or a
raised exception. -/
inductive CallRes (α : Type) where
  | ret (a : α) : CallRes α
  | raise (e : String) : CallRes α
deriving Repr, DecidableEq

/-- An observable collaborator invocation, recorded in the trace so
theorems can state which external operations a stage attempted.
`runnerRun` records the submitted URL, the pinned host (when the `host`
keyword was passed), the `uid` keyword and the `reschedule` keyword
(when passed). -/
inductive Call where
  | checkout : Call
  | mergeGitRef (url : String) : Call
  | mergePatchFile (path : String) : Call
  | mergePatchworkPatch (url : String) : Call
  | cleanKernelSource : Call
  | mktgz : Call
  | publish (path : String) : Call
  | runnerRun (url : String) (host : Option String) (uid : Val)
      (reschedule : Option Bool) : Call
  | report : Call
  | unlink (path : String) : Call
  | rmtree (path : String) : Call
deriving Repr, DecidableEq

/-- Whether a call applies a local patch or a patchwork patch (merge
categories (2) and (3)). -/
def Call.isPatchApply : Call → Bool
  | .mergePatchFile _ => true
  | .mergePatchworkPatch _ => true
  | _ => false

/-- The process state threaded through the orchestrator: the global
`retcode`, the `cfg` dictionary, the rc file (through which `save_state`
persists), the `_testcases` list (`cfg['_testcases']`, lifted out of
the dictionary so records keep their structure), and the ghost trace of
collaborator calls made so far. -/
structure PState where
  retcode : Int
  cfg : Cfg
  file : IniFile
  testcases : List TestCase
  trace : List Call
deriving Repr, DecidableEq

/-- One step of `save_state`'s first loop: `cfg[key] = val`. -/
def dictStep (c : Cfg) (kv : String × Val) : Cfg :=
  Cfg.set c kv.1 kv.2

/-- One step of `save_state`'s second loop: `if val is not None:
config.set('state', key, val)`. -/
def persistStep (f : IniFile) (kv : String × Val) : IniFile :=
  if kv.2 ≠ Val.vnone then f.setState kv.1 kv.2 else f

/-- `save_state(cfg, state)`: merge every update into the in-memory
`cfg`; then, only if `cfg.get('state')` is truthy, write every
non-`None` update into the `state` section of the rc file (adding the
section when missing) and rewrite it.  `None` values update memory but
are never persisted. -/
def save_state (s : PState) (updates : List (String × Val)) : PState :=
  let cfg1 := updates.foldl dictStep s.cfg
  if !(Cfg.get cfg1 "state").truthy then
    { s with cfg := cfg1 }
  else
    let file1 := updates.foldl persistStep
      (if s.file.hasStateSection then s.file
       else { s.file with hasStateSection := true })
    { s with cfg := cfg1, file := file1 }

/-- Outcome of running a stage body: normal return, or an uncaught Python
exception carrying the state as mutated up to the raise point. -/
inductive Outcome where
  | ok (s : PState) : Outcome
  | exn (e : String) (s : PState) : Outcome
deriving Repr, DecidableEq

/-- Python sequencing of two statements whose first may raise: the
exception propagates, skipping the rest. -/
def Outcome.bind (o : Outcome) (f : PState → Outcome) : Outcome :=
  match o with
  | .ok s => f s
  | .exn e s => .exn e s

/-- The `junit` decorator.  With `cfg.get('junit')` falsy the stage body
runs directly and any exception propagates unmodified.  Otherwise the
body runs guarded: an exception is caught (never re-raised), recorded as
failure info, and forces the global `retcode` to 1; if the body returns
normally but `retcode` is non-zero the case is marked failed with a
textual description; either way one test case carrying a snapshot of the
full `cfg` and the elapsed time `t` is appended to `_testcases`. -/
def junitWrap (name : String) (t : Int) (body : PState → Outcome)
    (s : PState) : Outcome :=
  if (Cfg.get s.cfg "junit").truthy then
    let tc0 : TestCase :=
      { name := name, classname := "skt", failures := [],
        stdoutSnap := none, elapsed := 0 }
    match body s with
    | .ok s1 =>
      let tc1 :=
        if s1.retcode != 0 && !tc0.isFailure then
          tc0.addFailureInfo
            ("Step finished with retcode: " ++ toString s1.retcode)
        else tc0
      let tc2 := { tc1 with stdoutSnap := some s1.cfg, elapsed := t }
      .ok { s1 with testcases := s1.testcases ++ [tc2] }
    | .exn e s1 =>
      let tc1 := tc0.addFailureInfo e
      let s2 : PState := { s1 with retcode := 1 }
      let tc2 :=
        if s2.retcode != 0 && !tc1.isFailure then
          tc1.addFailureInfo
            ("Step finished with retcode: " ++ toString s2.retcode)
        else tc1
      let tc3 := { tc2 with stdoutSnap := some s2.cfg, elapsed := t }
      .ok { s2 with testcases := s2.testcases ++ [tc3] }
  else body s

/-- Python `name.startswith(pfx)` (list-based so that it reduces). -/
def pyStartsWith (s pfx : String) : Bool := pfx.data.isPrefixOf s.data

/-- Python `set.add`: append unless already present. -/
def setAdd (xs : List String) (v : String) : List String :=
  if v ∈ xs then xs else xs ++ [v]

/-- Read a list-of-strings value (empty when absent or another shape). -/
def Cfg.getStrs (cfg : Cfg) (k : String) : List String :=
  match Cfg.get cfg k with
  | .vstrs xs => xs
  | _ => []

/-- Read a set-of-strings value (empty when absent or another shape). -/
def Cfg.getSet (cfg : Cfg) (k : String) : List String :=
  match Cfg.get cfg k with
  | .vset xs => xs
  | _ => []

/-- The `jobid_*` arm of the indexed-family materialization:
`cfg["jobs"]` is created as an empty set when absent, then the value is
added. -/
def addJob (cfg : Cfg) (value : String) : Cfg :=
  let c := if !cfg.hasKey "jobs" then Cfg.set cfg "jobs" (.vset []) else cfg
  Cfg.set c "jobs" (.vset (setAdd (Cfg.getSet c "jobs") value))

/-- The list-valued arms of the indexed-family materialization:
`cfg[dk]` is created as an empty list when absent, then the value is
appended, preserving section order. -/
def appendDerived (cfg : Cfg) (dk : String) (value : String) : Cfg :=
  let c := if !cfg.hasKey dk then Cfg.set cfg dk (.vstrs []) else cfg
  Cfg.set c dk (.vstrs (Cfg.getStrs c dk ++ [value]))

/-- The `if name.startswith(...)` chain of `load_config`'s state loop. -/
def materializeIndexed (cfg : Cfg) (name value : String) : Cfg :=
  if pyStartsWith name "jobid_" then addJob cfg value
  else if pyStartsWith name "mergerepo_" then appendDerived cfg "mergerepos" value
  else if pyStartsWith name "mergehead_" then appendDerived cfg "mergeheads" value
  else if pyStartsWith name "localpatch_" then appendDerived cfg "localpatches" value
  else if pyStartsWith name "patchwork_" then appendDerived cfg "patchworks" value
  else cfg

/-- One iteration of `load_config`'s loop over the persisted `state`
section: skipped entirely when `cfg.get(name)` is already truthy;
otherwise indexed-key families are additionally materialized into the
derived collections and finally `cfg[name] = value`. -/
def foldStateItem (cfg : Cfg) (kv : String × String) : Cfg :=
  if (Cfg.get cfg kv.1).truthy then cfg
  else Cfg.set (materializeIndexed cfg kv.1 kv.2) kv.1 (.vstr kv.2)

/-- One iteration of `load_config`'s loop over the static `config`
section: values only fill gaps (`if not cfg.get(name)`). -/
def foldConfigItem (cfg : Cfg) (kv : String × String) : Cfg :=
  if (Cfg.get cfg kv.1).truthy then cfg else Cfg.set cfg kv.1 (.vstr kv.2)

/-- The derived key names written by the indexed-family materialization. -/
def derivedKeys : List String :=
  ["jobs", "mergerepos", "mergeheads", "localpatches", "patchworks"]

/-- The section-merging part of `load_config`: starting from the
command-line dictionary `cfg0` (`vars(args)`), fold in the persisted
`state` section first (only when the `--state` flag is truthy and the
section exists), then the static `config` section (only when it
exists).  `none` for a section means the rc file has no such section. -/
def load_config_merge (cfg0 : Cfg)
    (stateSec : Option (List (String × String)))
    (configSec : Option (List (String × String))) : Cfg :=
  let cfg1 :=
    match stateSec with
    | some items =>
      if (Cfg.get cfg0 "state").truthy then items.foldl foldStateItem cfg0
      else cfg0
    | none => cfg0
  match configSec with
  | some items => items.foldl foldConfigItem cfg1
  | none => cfg1

/-- Append a collaborator call to the ghost trace. -/
def pushCall (s : PState) (c : Call) : PState :=
  { s with trace := s.trace ++ [c] }

/-- Record a collaborator call only when the guarding condition held
(the `if ...:` blocks around optional collaborator calls). -/
def pushCallIf (b : Bool) (c : Call) (s : PState) : PState :=
  if b then pushCall s c else s

/-- Python `'%s' % v` for the value shapes the orchestrator formats. -/
def Val.pyStr : Val → String
  | .vnone => "None"
  | .vstr s => s
  | .vint n => toString n
  | .vbool b => if b then "True" else "False"
  | .vstrs _ => ""
  | .vset _ => ""
  | .vrefs _ => ""

/-- Python `'%02d' % n`: zero-pad to two digits. -/
def fmt02 (n : Nat) : String :=
  if n < 10 then "0" ++ toString n else toString n

/-- The url component `mb[0]` of a merge-ref entry (`load_config` always
builds entries as `[url]` or `[url, ref]`, so the list is non-empty). -/
def hd0 : List String → String
  | [] => ""
  | x :: _ => x

/-- The merge-ref entries of a `merge_ref` value. -/
def Val.asRefs : Val → List (List String)
  | .vrefs xs => xs
  | _ => []

/-- The entries of a list-of-strings value. -/
def Val.asStrs : Val → List String
  | .vstrs xs => xs
  | _ => []

/-- Observable behaviour of the `KernelTree` collaborator
(`skt.kerneltree`, outside the embedded file), per the merge-engine
contract: `treeHead n` is the head of the checked-out tree after the
first `n` merge-refs have been applied (`treeHead 0` is the result of
`checkout()`), `gitRes i` is the i-th `merge_git_ref` outcome,
`patchRes i` / `pwRes i` the patch-application outcomes, and the rest
are the accessor results. -/
structure MergeEnv where
  mergelog : String
  treeHead : Nat → String
  commitDate : String
  gitRes : Nat → CallRes Int
  patchRes : Nat → CallRes Unit
  pwRes : Nat → CallRes Unit
  kpath : String
  buildinfo : String
  commitHash : String

/-- Modelled from the spec: the merge-engine collaborator
(`skt.kerneltree`, which is not under the embedded sources) applies
merge-refs to the tree in order, so the head of the tree immediately
before the i-th merge-ref is applied is the head after the first `i`
merges: the checkout head for `i = 0`, the post-merge head otherwise. -/
def headBeforeMerge (env : MergeEnv) (i : Nat) : String :=
  env.treeHead i

/-- Result of the merge-ref loop of `cmd_merge`: fell through, returned
early from the function (`if retcode: return`), or raised. -/
inductive MergeLoopRes where
  | done (s : PState) (utypes : List String) : MergeLoopRes
  | earlyRet (s : PState) : MergeLoopRes
  | raised (e : String) (s : PState) : MergeLoopRes

/-- The `for mb in cfg.get('merge_ref')` loop of `cmd_merge`: record
`mergerepo_%02d`/`mergehead_%02d` (the latter always the constant
`bhead` from the single `checkout()`), call `merge_git_ref`, append
`"[git]"`, and return early on a non-zero merge result. -/
def mergeRefsLoop (env : MergeEnv) (bhead : String) :
    List (List String) → Nat → List String → PState → MergeLoopRes
  | [], _, utypes, s => .done s utypes
  | mb :: rest, idx, utypes, s =>
    let s1 := save_state s [("mergerepo_" ++ fmt02 idx, .vstr (hd0 mb)),
                            ("mergehead_" ++ fmt02 idx, .vstr bhead)]
    let s2 := pushCall s1 (.mergeGitRef (hd0 mb))
    match env.gitRes idx with
    | .raise e => .raised e s2
    | .ret code =>
      let s3 : PState := { s2 with retcode := code }
      if code != 0 then .earlyRet s3
      else mergeRefsLoop env bhead rest (idx + 1) (utypes ++ ["[git]"]) s3

/-- The local-patch loop of `cmd_merge`: record `localpatch_%02d`, then
`merge_patch_file`. -/
def patchLoop (env : MergeEnv) : List String → Nat → PState → Outcome
  | [], _, s => .ok s
  | p :: rest, idx, s =>
    let s1 := save_state s [("localpatch_" ++ fmt02 idx, .vstr p)]
    let s2 := pushCall s1 (.mergePatchFile p)
    match env.patchRes idx with
    | .raise e => .exn e s2
    | .ret _ => patchLoop env rest (idx + 1) s2

/-- The patchwork loop of `cmd_merge`: record `patchwork_%02d`, then
`merge_patchwork_patch`. -/
def pwLoop (env : MergeEnv) : List String → Nat → PState → Outcome
  | [], _, s => .ok s
  | p :: rest, idx, s =>
    let s1 := save_state s [("patchwork_" ++ fmt02 idx, .vstr p)]
    let s2 := pushCall s1 (.mergePatchworkPatch p)
    match env.pwRes idx with
    | .raise e => .exn e s2
    | .ret _ => pwLoop env rest (idx + 1) s2

/-- The `cmd_merge` stage body (the function under the `@junit`
decorator).  Stub mode writes only `baserepo`/`mergelog`; the real path
checks out the base, records `basehead`/`commitdate`, runs the three
merge categories in order, persists `mergelog` and re-raises on any
exception, and otherwise records `workdir`/`buildinfo`/`buildhead` and
the `uid` tag line. -/
def cmd_merge_body (env : MergeEnv) (s0 : PState) : Outcome :=
  if Cfg.get s0.cfg "test" != .vnone then
    if Cfg.get s0.cfg "test" = .vint 0 then
      .ok (save_state s0 [("baserepo", Cfg.get s0.cfg "baserepo"),
                          ("mergelog", .vstr "")])
    else
      .ok (save_state s0 [("mergelog", .vstr env.mergelog)])
  else
    let bhead := env.treeHead 0
    let s1 := pushCall s0 .checkout
    let s2 := save_state s1 [("baserepo", Cfg.get s1.cfg "baserepo"),
                             ("basehead", .vstr bhead),
                             ("commitdate", .vstr env.commitDate)]
    match mergeRefsLoop env bhead ((Cfg.get s2.cfg "merge_ref").asRefs) 0 [] s2 with
    | .raised e s3 => .exn e (save_state s3 [("mergelog", .vstr env.mergelog)])
    | .earlyRet s3 => .ok s3
    | .done s3 utypes =>
      let hasP := (Cfg.get s3.cfg "patchlist").truthy
      let utypes1 := if hasP then utypes ++ ["[local patch]"] else utypes
      match (if hasP then patchLoop env ((Cfg.get s3.cfg "patchlist").asStrs) 0 s3
             else .ok s3) with
      | .exn e s4 => .exn e (save_state s4 [("mergelog", .vstr env.mergelog)])
      | .ok s4 =>
        let hasPw := (Cfg.get s4.cfg "pw").truthy
        let utypes2 := if hasPw then utypes1 ++ ["[patchwork]"] else utypes1
        match (if hasPw then pwLoop env ((Cfg.get s4.cfg "pw").asStrs) 0 s4
               else .ok s4) with
        | .exn e s5 => .exn e (save_state s5 [("mergelog", .vstr env.mergelog)])
        | .ok s5 =>
          let uid := if utypes2.isEmpty then "[baseline]"
                     else " ".intercalate utypes2
          .ok (save_state s5 [("workdir", .vstr env.kpath),
                              ("buildinfo", .vstr env.buildinfo),
                              ("buildhead", .vstr env.commitHash),
                              ("uid", .vstr uid)])

/-- Observable behaviour of the `KernelBuilder` collaborator. -/
structure BuildEnv where
  mktgzRes : CallRes String
  buildlog : String
  cfgpath : String
  krelease : String
  buildArch : String

/-- Python `addtstamp(path, tstamp)` for a bare file name (path handling
of directories is delegated to `os.path` and out of scope). -/
def addtstamp (path tstamp : String) : String :=
  tstamp ++ "-" ++ path

/-- The `cmd_build` stage body.  Stub mode persists only `buildhead`
(stub 0) or `buildlog = "stub"` (other stubs); the real path optionally
cleans the source, builds the tarball (persisting `buildlog` and
re-raising on exception), renames artifacts after `buildhead` or a
timestamp, and records the artifact descriptor. -/
def cmd_build_body (env : BuildEnv) (tstamp : String) (s0 : PState) : Outcome :=
  if Cfg.get s0.cfg "test" != .vnone then
    if Cfg.get s0.cfg "test" = .vint 0 then
      .ok (save_state s0 [("buildhead", Cfg.get s0.cfg "buildhead")])
    else
      .ok (save_state s0 [("buildlog", .vstr "stub")])
  else
    let s1 := pushCallIf ((Cfg.get s0.cfg "wipe").truthy) .cleanKernelSource s0
    let s2 := pushCall s1 .mktgz
    match env.mktgzRes with
    | .raise e => .exn e (save_state s2 [("buildlog", .vstr env.buildlog)])
    | .ret tgz =>
      let ttgz := if (Cfg.get s2.cfg "buildhead").truthy
        then (Cfg.get s2.cfg "buildhead").pyStr ++ ".tar.gz"
        else addtstamp tgz tstamp
      let tbuildinfo : Val :=
        if (Cfg.get s2.cfg "buildinfo").truthy then
          if (Cfg.get s2.cfg "buildhead").truthy
          then .vstr ((Cfg.get s2.cfg "buildhead").pyStr ++ ".csv")
          else .vstr (addtstamp (Cfg.get s2.cfg "buildinfo").pyStr tstamp)
        else .vnone
      let tconfig := tbuildinfo.pyStr ++ ".config"
      .ok (save_state s2 [("tarpkg", .vstr ttgz),
                          ("buildinfo", tbuildinfo),
                          ("buildconf", .vstr tconfig),
                          ("krelease", .vstr env.krelease),
                          ("kernel_arch", .vstr env.buildArch)])

/-- Observable behaviour of the publisher collaborator:
`publishUrl p` is the URL returned by `publish(p)` and `geturl f` the
URL derived for a previously published file name `f`. -/
structure PubEnv where
  publishUrl : String → String
  geturl : String → String

/-- The `cmd_publish` stage body.  The publisher is constructed and the
`tarpkg` requirement checked before the stub shortcut; the real path
publishes the tarball and, when present, the build-info and config
files, recording one URL each. -/
def cmd_publish_body (env : PubEnv) (s0 : PState) : Outcome :=
  if !(Cfg.get s0.cfg "publisher").truthy then
    .exn "TypeError: getpublisher argument unpacking failed" s0
  else if !(Cfg.get s0.cfg "tarpkg").truthy then
    .exn "Exception: skt publish is missing --tarpkg <path> option" s0
  else if Cfg.get s0.cfg "test" != .vnone then
    .ok (save_state s0 [("buildurl", .vstr "some.url.com")])
  else
    let tar := (Cfg.get s0.cfg "tarpkg").pyStr
    let s1 := pushCall s0 (.publish tar)
    let url := env.publishUrl tar
    let infoP := (Cfg.get s1.cfg "buildinfo").truthy
    let s2 := pushCallIf infoP (.publish ((Cfg.get s1.cfg "buildinfo").pyStr)) s1
    let infourl : Val := if infoP
      then .vstr (env.publishUrl ((Cfg.get s1.cfg "buildinfo").pyStr))
      else .vnone
    let cfgP := (Cfg.get s2.cfg "buildconf").truthy
    let s3 := pushCallIf cfgP (.publish ((Cfg.get s2.cfg "buildconf").pyStr)) s2
    let cfgurl : Val := if cfgP
      then .vstr (env.publishUrl ((Cfg.get s2.cfg "buildconf").pyStr))
      else .vnone
    .ok (save_state s3 [("buildurl", .vstr url),
                        ("cfgurl", cfgurl),
                        ("infourl", infourl)])

/-- Observable behaviour of the runner collaborator for one `cmd_run`
invocation: the primary `run` result, the submitted job identifiers,
the host reported by `get_mfhost()`, and the `run` result of the
freshly constructed baseline runner. -/
structure RunEnv where
  runRes : Int
  jobs : List String
  mfhost : String
  baseRunRes : Int

/-- The `for job in runner.jobs` loop of `cmd_run`: record each job id
as `jobid_<idx>` in submission order (`dumpjunitresults` writes external
report files and is not modelled). -/
def jobsLoop : List String → Nat → PState → PState
  | [], _, s => s
  | j :: rest, idx, s =>
    jobsLoop rest (idx + 1)
      (save_state s [("jobid_" ++ toString idx, .vstr j)])

/-- The `cmd_run` stage body.  Stub mode records `retcode` in state only
(and does not touch the global result code).  The real path submits the
published build, records job ids, and runs the baseline-fallback
algorithm: when the result is non-zero, a `basehead` is recorded that
differs from `buildhead`, and a publisher is configured, the baseline
artifact URL is re-derived and re-submitted pinned to the primary run's
host with `reschedule=False`; a non-zero baseline result overrides the
overall result to 0. -/
def cmd_run_body (penv : PubEnv) (env : RunEnv) (s0 : PState) : Outcome :=
  if Cfg.get s0.cfg "test" != .vnone then
    .ok (save_state s0 [("retcode", Cfg.get s0.cfg "test")])
  else if !(Cfg.get s0.cfg "runner").truthy then
    .exn "TypeError: getrunner argument unpacking failed" s0
  else
    let s1 := pushCall s0
      (.runnerRun ((Cfg.get s0.cfg "buildurl").pyStr) none
        (Cfg.get s0.cfg "uid") none)
    let s2 : PState := { s1 with retcode := env.runRes }
    let s3 := jobsLoop env.jobs 0 s2
    let s4 : PState := { s3 with cfg := Cfg.set s3.cfg "jobs" (.vset env.jobs) }
    if (s4.retcode != 0)
        && (Cfg.get s4.cfg "basehead").truthy
        && (Cfg.get s4.cfg "publisher").truthy
        && (Cfg.get s4.cfg "basehead" != Cfg.get s4.cfg "buildhead") then
      let baseurl := penv.geturl ((Cfg.get s4.cfg "basehead").pyStr ++ ".tar.gz")
      let basehost := env.mfhost
      let s5 := pushCall s4
        (.runnerRun baseurl (some basehost) (.vstr "baseline check")
          (some false))
      let s6 := save_state s5 [("baseretcode", .vint env.baseRunRes)]
      let s7 : PState := if env.baseRunRes != 0 then { s6 with retcode := 0 } else s6
      .ok (save_state s7 [("retcode", .vint s7.retcode)])
    else
      .ok (save_state s4 [("retcode", .vint s4.retcode)])

/-- Observable behaviour of the reporter resolution: whether
`getattr(skt.reporter, '<Type>Reporter')` succeeds. -/
structure ReportEnv where
  reporterResolves : Bool

/-- The `cmd_report` stage body (not decorated with `@junit`): nothing
to do without a reporter; a resolution miss is fatal (`sys.exit`); stub
mode returns after resolution; otherwise reporting is delegated to the
collaborator. -/
def cmd_report_body (env : ReportEnv) (s0 : PState) : Outcome :=
  if !(Cfg.get s0.cfg "reporter").truthy then .ok s0
  else if !env.reporterResolves then
    .exn "SystemExit: Unable to find specified reporter type" s0
  else if Cfg.get s0.cfg "test" != .vnone then .ok s0
  else .ok (pushCall s0 .report)

/-- `cmd_cleanup` step 1: `config.remove_section('state')` and rewrite
of the rc file, when the section exists. -/
def cleanupFile (s : PState) : PState :=
  if s.file.hasStateSection
  then { s with file := { hasStateSection := false, stateSection := [] } }
  else s

/-- `cmd_cleanup` steps 2 and 3: `os.unlink` of a recorded artifact
path when present (OSError swallowed inside the call). -/
def cleanupUnlink (key : String) (s : PState) : PState :=
  if (Cfg.get s.cfg key).truthy
  then pushCall s (.unlink ((Cfg.get s.cfg key).pyStr)) else s

/-- `cmd_cleanup` step 4: `shutil.rmtree` of the work directory when a
wipe was requested. -/
def cleanupWipe (s : PState) : PState :=
  if (Cfg.get s.cfg "wipe").truthy && (Cfg.get s.cfg "workdir").truthy
  then pushCall s (.rmtree ((Cfg.get s.cfg "workdir").pyStr)) else s

/-- The `cmd_cleanup` stage body (not decorated with `@junit`): remove
the persisted `state` section when present, unlink the build-info and
tarball files when recorded (missing-file errors are swallowed inside
the collaborator calls), and wipe the work directory on request. -/
def cmd_cleanup_body (s0 : PState) : Outcome :=
  .ok (cleanupWipe (cleanupUnlink "tarpkg" (cleanupUnlink "buildinfo" (cleanupFile s0))))

/-- `cmd_all`: merge, build, publish and run (each under the `junit`
decorator), then report only when `--wait` was given, then cleanup;
an uncaught exception aborts the remaining stages. -/
def cmd_all (me : MergeEnv) (be : BuildEnv) (pe : PubEnv) (re : RunEnv)
    (rpe : ReportEnv) (tstamp : String) (t : Int) (s : PState) : Outcome :=
  (junitWrap "cmd_merge" t (cmd_merge_body me) s).bind fun s1 =>
  (junitWrap "cmd_build" t (cmd_build_body be tstamp) s1).bind fun s2 =>
  (junitWrap "cmd_publish" t (cmd_publish_body pe) s2).bind fun s3 =>
  (junitWrap "cmd_run" t (cmd_run_body pe re) s3).bind fun s4 =>
  ((if (Cfg.get s4.cfg "wait").truthy then cmd_report_body rpe s4
    else .ok s4)).bind fun s5 =>
  cmd_cleanup_body s5

/-- The process exit of `main`: `sys.exit(retcode)` with the global
result code on a normal return of the invoked command; an uncaught
exception terminates the interpreter with exit status 1. -/
def mainExit (o : Outcome) : Int :=
  match o with
  | .ok s => s.retcode
  | .exn _ _ => 1

/-- The final state of either outcome (the in-process state at the point
the command finished or the exception escaped). -/
def Outcome.stateOf : Outcome → PState
  | .ok s => s
  | .exn _ s => s

/-- Whether the outcome is a normal return. -/
def Outcome.isOk : Outcome → Bool
  | .ok _ => true
  | .exn _ _ => false

/-- The state carried by each merge-loop outcome. -/
def MergeLoopRes.stateOf : MergeLoopRes → PState
  | .done s _ => s
  | .earlyRet s => s
  | .raised _ s => s

/-- Decimal value of a digit character (verification helper used to
invert the `%02d` formatting of the indexed state keys). -/
def digitVal (c : Char) : Nat := c.toNat - 48

/-- Parse a digit string back into a number, most significant digit
first (verification helper: a left inverse of decimal formatting, from
which injectivity of `fmt02` follows). -/
def pval (acc : Nat) : List Char → Nat
  | [] => acc
  | c :: cs => pval (acc * 10 + digitVal c) cs

theorem Cfg.get_set_same (cfg : Cfg) (k : String) (v : Val) :
    Cfg.get (Cfg.set cfg k v) k = v := by
  induction cfg with
  | nil => simp [Cfg.set, Cfg.get]
  | cons kv rest ih =>
    by_cases h : kv.1 = k
    · simp [Cfg.set, Cfg.get, h]
    · simp [Cfg.set, Cfg.get, h, ih]

theorem Cfg.get_set_ne (cfg : Cfg) (k k' : String) (v : Val) (h : k ≠ k') :
    Cfg.get (Cfg.set cfg k v) k' = Cfg.get cfg k' := by
  induction cfg with
  | nil => simp [Cfg.set, Cfg.get, h]
  | cons kv rest ih =>
    by_cases hk : kv.1 = k
    · simp [Cfg.set, Cfg.get, hk, h, hk.symm ▸ h]
    · by_cases hk' : kv.1 = k'
      · simp [Cfg.set, Cfg.get, hk, hk', Ne.symm h]
      · simp [Cfg.set, Cfg.get, hk, hk', ih]

theorem Cfg.hasKey_set_same (cfg : Cfg) (k : String) (v : Val) :
    Cfg.hasKey (Cfg.set cfg k v) k = true := by
  induction cfg with
  | nil => simp [Cfg.set, Cfg.hasKey]
  | cons kv rest ih =>
    by_cases h : kv.1 = k
    · simp [Cfg.set, Cfg.hasKey, h]
    · simp [Cfg.set, Cfg.hasKey, h, ih]

theorem Cfg.hasKey_set_ne (cfg : Cfg) (k k' : String) (v : Val) (h : k ≠ k') :
    Cfg.hasKey (Cfg.set cfg k v) k' = Cfg.hasKey cfg k' := by
  induction cfg with
  | nil => simp [Cfg.set, Cfg.hasKey, h]
  | cons kv rest ih =>
    by_cases hk : kv.1 = k
    · simp [Cfg.set, Cfg.hasKey, hk, h, hk.symm ▸ h]
    · by_cases hk' : kv.1 = k'
      · simp [Cfg.set, Cfg.hasKey, hk, hk', Ne.symm h]
      · simp [Cfg.set, Cfg.hasKey, hk, hk', ih]

theorem addJob_get_ne (cfg : Cfg) (value : String) (k : String)
    (h : k ≠ "jobs") :
    Cfg.get (addJob cfg value) k = Cfg.get cfg k := by
  unfold addJob
  split_ifs <;> simp [Cfg.get_set_ne, Ne.symm h]

theorem appendDerived_get_ne (cfg : Cfg) (dk value : String) (k : String)
    (h : k ≠ dk) :
    Cfg.get (appendDerived cfg dk value) k = Cfg.get cfg k := by
  unfold appendDerived
  split_ifs <;> simp [Cfg.get_set_ne, Ne.symm h]

theorem materializeIndexed_get_ne (cfg : Cfg) (name value : String)
    (k : String) (hder : k ∉ derivedKeys) :
    Cfg.get (materializeIndexed cfg name value) k = Cfg.get cfg k := by
  simp only [derivedKeys, List.mem_cons, List.not_mem_nil, or_false,
    not_or] at hder
  obtain ⟨h1, h2, h3, h4, h5⟩ := hder
  unfold materializeIndexed
  split_ifs <;>
    simp [addJob_get_ne, appendDerived_get_ne, h1, h2, h3, h4, h5]

theorem foldStateItem_get_other (cfg : Cfg) (kv : String × String) (k : String)
    (hder : k ∉ derivedKeys) (hne : kv.1 ≠ k) :
    Cfg.get (foldStateItem cfg kv) k = Cfg.get cfg k := by
  unfold foldStateItem
  split_ifs
  · rfl
  · rw [Cfg.get_set_ne _ _ _ _ hne, materializeIndexed_get_ne _ _ _ _ hder]

theorem foldStateItem_get_self (cfg : Cfg) (kv : String × String)
    (ht : (Cfg.get cfg kv.1).truthy = false) :
    Cfg.get (foldStateItem cfg kv) kv.1 = .vstr kv.2 := by
  unfold foldStateItem
  simp [ht, Cfg.get_set_same]

theorem foldStateItem_get_truthy (cfg : Cfg) (kv : String × String) (k : String)
    (hder : k ∉ derivedKeys) (ht : (Cfg.get cfg k).truthy = true) :
    Cfg.get (foldStateItem cfg kv) k = Cfg.get cfg k := by
  by_cases hne : kv.1 = k
  · subst hne
    unfold foldStateItem
    simp [ht]
  · exact foldStateItem_get_other cfg kv k hder hne

theorem foldl_state_get_other (items : List (String × String)) (cfg : Cfg)
    (k : String) (hder : k ∉ derivedKeys) (hne : ∀ kv ∈ items, kv.1 ≠ k) :
    Cfg.get (items.foldl foldStateItem cfg) k = Cfg.get cfg k := by
  induction items generalizing cfg with
  | nil => rfl
  | cons kv rest ih =>
    rw [List.foldl_cons,
      ih (foldStateItem cfg kv) (fun x hx => hne x (List.mem_cons_of_mem _ hx)),
      foldStateItem_get_other cfg kv k hder (hne kv (List.mem_cons_self _ _))]

theorem foldl_state_get_truthy (items : List (String × String)) (cfg : Cfg)
    (k : String) (hder : k ∉ derivedKeys)
    (ht : (Cfg.get cfg k).truthy = true) :
    Cfg.get (items.foldl foldStateItem cfg) k = Cfg.get cfg k := by
  induction items generalizing cfg with
  | nil => rfl
  | cons kv rest ih =>
    have h1 := foldStateItem_get_truthy cfg kv k hder ht
    rw [List.foldl_cons, ih (foldStateItem cfg kv) (by rw [h1]; exact ht), h1]

theorem foldConfigItem_get_truthy (cfg : Cfg) (kv : String × String)
    (k : String) (ht : (Cfg.get cfg k).truthy = true) :
    Cfg.get (foldConfigItem cfg kv) k = Cfg.get cfg k := by
  by_cases hne : kv.1 = k
  · subst hne
    unfold foldConfigItem
    simp [ht]
  · unfold foldConfigItem
    split_ifs
    · rfl
    · rw [Cfg.get_set_ne _ _ _ _ hne]

theorem foldl_config_get_truthy (items : List (String × String)) (cfg : Cfg)
    (k : String) (ht : (Cfg.get cfg k).truthy = true) :
    Cfg.get (items.foldl foldConfigItem cfg) k = Cfg.get cfg k := by
  induction items generalizing cfg with
  | nil => rfl
  | cons kv rest ih =>
    have h1 := foldConfigItem_get_truthy cfg kv k ht
    rw [List.foldl_cons, ih (foldConfigItem cfg kv) (by rw [h1]; exact ht), h1]

/-- **C3 (amended).** Merge precedence of `load_config`: a key present
in both the persisted `state` section and the `config` section loads
with the persisted-state value provided that value is truthy
(non-empty) — state is read first and the config loop only fills gaps —
and a truthy command-line value overrides both sections.  Falsy values
take no precedence (see the counterexample): both merge loops skip only
keys whose current value is truthy.  Stated for ordinary scalar keys
distinct from the derived indexed-family names. -/
theorem load_config_state_over_config :
    (∀ (cfg0 : Cfg) (stateItems configItems : List (String × String))
       (k sv cv : String),
       (Cfg.get cfg0 "state").truthy = true →
       (k, sv) ∈ stateItems →
       (k, cv) ∈ configItems →
       (stateItems.map Prod.fst).Nodup →
       sv ≠ "" →
       k ∉ derivedKeys →
       (Cfg.get cfg0 k).truthy = false →
       Cfg.get (load_config_merge cfg0 (some stateItems) (some configItems)) k
         = .vstr sv)
    ∧ (∀ (cfg0 : Cfg) (stateItems configItems : List (String × String))
         (k : String),
         (Cfg.get cfg0 k).truthy = true →
         k ∉ derivedKeys →
         Cfg.get (load_config_merge cfg0 (some stateItems) (some configItems)) k
           = Cfg.get cfg0 k) := by
  constructor
  · intro cfg0 stateItems configItems k sv cv hflag hmemS _hmemC hnd hsv hder hk0
    obtain ⟨l1, l2, rfl⟩ := List.append_of_mem hmemS
    have hmap : (l1.map Prod.fst ++ k :: l2.map Prod.fst).Nodup := by
      simpa using hnd
    have hk_l1 : ∀ kv ∈ l1, kv.1 ≠ k := by
      intro kv hkv heq
      have : k ∈ l1.map Prod.fst := heq ▸ List.mem_map_of_mem Prod.fst hkv
      exact (List.disjoint_of_nodup_append hmap) this (List.mem_cons_self _ _)
    have hk_l2 : ∀ kv ∈ l2, kv.1 ≠ k := by
      intro kv hkv heq
      have hk2 : k ∈ l2.map Prod.fst := heq ▸ List.mem_map_of_mem Prod.fst hkv
      have := (List.Nodup.of_append_right hmap)
      rw [List.nodup_cons] at this
      exact this.1 hk2
    have hstep : Cfg.get ((l1 ++ (k, sv) :: l2).foldl foldStateItem cfg0) k
        = .vstr sv := by
      rw [List.foldl_append, List.foldl_cons]
      have hpre : Cfg.get (l1.foldl foldStateItem cfg0) k = Cfg.get cfg0 k :=
        foldl_state_get_other l1 cfg0 k hder hk_l1
      have hset : Cfg.get (foldStateItem (l1.foldl foldStateItem cfg0) (k, sv)) k
          = .vstr sv :=
        foldStateItem_get_self _ (k, sv) (by rw [hpre]; exact hk0)
      rw [foldl_state_get_other l2 _ k hder hk_l2, hset]
    have hemp : sv.isEmpty = false := by
      rw [Bool.eq_false_iff]
      intro hh
      exact hsv ((String.isEmpty_iff sv).mp hh)
    have htr : (Val.vstr sv).truthy = true := by
      simp [Val.truthy, hemp]
    simp only [load_config_merge]
    rw [if_pos hflag]
    rw [foldl_config_get_truthy _ _ _ (by rw [hstep]; exact htr), hstep]
  · intro cfg0 stateItems configItems k hk hder
    simp only [load_config_merge]
    by_cases hflag : (Cfg.get cfg0 "state").truthy = true
    · rw [if_pos hflag]
      rw [foldl_config_get_truthy _ _ _
          (by rw [foldl_state_get_truthy stateItems cfg0 k hder hk]; exact hk),
        foldl_state_get_truthy stateItems cfg0 k hder hk]
    · rw [if_neg hflag]
      rw [foldl_config_get_truthy _ _ _ hk]

/-- **C5.** Indexed-sequence reconstruction by `load_config`: persisted
keys `jobid_00=a, jobid_01=b` yield a `jobs` set containing exactly
`{a, b}`, and persisted keys `mergerepo_00=u1, mergehead_00=h1,
mergerepo_01=u2, mergehead_01=h2` (in section order) yield the ordered
sequences `mergerepos = [u1, u2]` and `mergeheads = [h1, h2]`. -/
theorem load_config_indexed_reconstruction (cfg0 : Cfg)
    (a b u1 h1 u2 h2 : String)
    (hflag : (Cfg.get cfg0 "state").truthy = true)
    (hj0 : (Cfg.get cfg0 "jobid_00").truthy = false)
    (hj1 : (Cfg.get cfg0 "jobid_01").truthy = false)
    (hjobs : cfg0.hasKey "jobs" = false)
    (hm0 : (Cfg.get cfg0 "mergerepo_00").truthy = false)
    (hh0 : (Cfg.get cfg0 "mergehead_00").truthy = false)
    (hm1 : (Cfg.get cfg0 "mergerepo_01").truthy = false)
    (hh1 : (Cfg.get cfg0 "mergehead_01").truthy = false)
    (hmr : cfg0.hasKey "mergerepos" = false)
    (hmh : cfg0.hasKey "mergeheads" = false) :
    (∃ l, Cfg.get (load_config_merge cfg0
        (some [("jobid_00", a), ("jobid_01", b)]) none) "jobs" = .vset l
      ∧ ∀ x, x ∈ l ↔ (x = a ∨ x = b))
    ∧ Cfg.get (load_config_merge cfg0
        (some [("mergerepo_00", u1), ("mergehead_00", h1),
               ("mergerepo_01", u2), ("mergehead_01", h2)]) none)
        "mergerepos" = .vstrs [u1, u2]
    ∧ Cfg.get (load_config_merge cfg0
        (some [("mergerepo_00", u1), ("mergehead_00", h1),
               ("mergerepo_01", u2), ("mergehead_01", h2)]) none)
        "mergeheads" = .vstrs [h1, h2] := by
  refine ⟨⟨setAdd (setAdd [] a) b, ?_, ?_⟩, ?_, ?_⟩
  · simp only [load_config_merge]
    rw [if_pos hflag]
    simp +decide [List.foldl, foldStateItem, materializeIndexed, addJob,
      Cfg.getSet, Cfg.get_set_ne, Cfg.get_set_same, Cfg.hasKey_set_ne,
      Cfg.hasKey_set_same, hj0, hj1, hjobs]
  · intro x
    by_cases hba : b = a
    · simp [setAdd, hba]
    · simp [setAdd, hba]
  · simp only [load_config_merge]
    rw [if_pos hflag]
    simp +decide [List.foldl, foldStateItem, materializeIndexed,
      appendDerived, Cfg.getStrs, Cfg.get_set_ne, Cfg.get_set_same,
      Cfg.hasKey_set_ne, Cfg.hasKey_set_same, hm0, hh0, hm1, hh1, hmr, hmh]
  · simp only [load_config_merge]
    rw [if_pos hflag]
    simp +decide [List.foldl, foldStateItem, materializeIndexed,
      appendDerived, Cfg.getStrs, Cfg.get_set_ne, Cfg.get_set_same,
      Cfg.hasKey_set_ne, Cfg.hasKey_set_same, hm0, hh0, hm1, hh1, hmr, hmh]

theorem save_state_cfg (s : PState) (updates : List (String × Val)) :
    (save_state s updates).cfg = updates.foldl dictStep s.cfg := by
  simp only [save_state]
  split <;> rfl

theorem save_state_retcode (s : PState) (updates : List (String × Val)) :
    (save_state s updates).retcode = s.retcode := by
  simp only [save_state]
  split <;> rfl

theorem save_state_testcases (s : PState) (updates : List (String × Val)) :
    (save_state s updates).testcases = s.testcases := by
  simp only [save_state]
  split <;> rfl

theorem foldl_dictStep_get_other (l : List (String × Val)) (cfg : Cfg)
    (k : String) (h : ∀ kv ∈ l, kv.1 ≠ k) :
    Cfg.get (l.foldl dictStep cfg) k = Cfg.get cfg k := by
  induction l generalizing cfg with
  | nil => rfl
  | cons kv rest ih =>
    rw [List.foldl_cons,
      ih (dictStep cfg kv) (fun x hx => h x (List.mem_cons_of_mem _ hx))]
    exact Cfg.get_set_ne _ _ _ _ (h kv (List.mem_cons_self _ _))

theorem nodup_keys_split_left {α : Type} (l1 l2 : List (String × α))
    (k : String) (v : α)
    (hnd : ((l1 ++ (k, v) :: l2).map Prod.fst).Nodup) :
    ∀ kv ∈ l1, kv.1 ≠ k := by
  intro kv hkv heq
  have hmap : (l1.map Prod.fst ++ k :: l2.map Prod.fst).Nodup := by
    simpa using hnd
  have hin : k ∈ l1.map Prod.fst := heq ▸ List.mem_map_of_mem Prod.fst hkv
  exact (List.disjoint_of_nodup_append hmap) hin (List.mem_cons_self _ _)

theorem nodup_keys_split_right {α : Type} (l1 l2 : List (String × α))
    (k : String) (v : α)
    (hnd : ((l1 ++ (k, v) :: l2).map Prod.fst).Nodup) :
    ∀ kv ∈ l2, kv.1 ≠ k := by
  intro kv hkv heq
  have hmap : (l1.map Prod.fst ++ k :: l2.map Prod.fst).Nodup := by
    simpa using hnd
  have hin : k ∈ l2.map Prod.fst := heq ▸ List.mem_map_of_mem Prod.fst hkv
  have hc := List.Nodup.of_append_right hmap
  rw [List.nodup_cons] at hc
  exact hc.1 hin

theorem foldl_dictStep_get_mem (l : List (String × Val)) (cfg : Cfg)
    (k : String) (v : Val) (hmem : (k, v) ∈ l)
    (hnd : (l.map Prod.fst).Nodup) :
    Cfg.get (l.foldl dictStep cfg) k = v := by
  obtain ⟨l1, l2, rfl⟩ := List.append_of_mem hmem
  rw [List.foldl_append, List.foldl_cons,
    foldl_dictStep_get_other l2 _ k (nodup_keys_split_right l1 l2 k v hnd)]
  exact Cfg.get_set_same _ _ _

theorem IniFile.getState_setState_same (f : IniFile) (k : String) (v : Val) :
    (f.setState k v).getState k = v :=
  Cfg.get_set_same _ _ _

theorem IniFile.getState_setState_ne (f : IniFile) (k k' : String) (v : Val)
    (h : k ≠ k') : (f.setState k v).getState k' = f.getState k' :=
  Cfg.get_set_ne _ _ _ _ h

theorem persistStep_vnone (f : IniFile) (k : String) :
    persistStep f (k, Val.vnone) = f := by
  simp [persistStep]

theorem persistStep_getState_ne (f : IniFile) (kv : String × Val)
    (k : String) (h : kv.1 ≠ k) :
    (persistStep f kv).getState k = f.getState k := by
  unfold persistStep
  split_ifs
  · exact IniFile.getState_setState_ne _ _ _ _ h
  · rfl

theorem foldl_persistStep_getState_other (l : List (String × Val))
    (f : IniFile) (k : String) (h : ∀ kv ∈ l, kv.1 ≠ k) :
    (l.foldl persistStep f).getState k = f.getState k := by
  induction l generalizing f with
  | nil => rfl
  | cons kv rest ih =>
    rw [List.foldl_cons,
      ih (persistStep f kv) (fun x hx => h x (List.mem_cons_of_mem _ hx))]
    exact persistStep_getState_ne f kv k (h kv (List.mem_cons_self _ _))

theorem initFile_getState (f : IniFile) (k : String) :
    ((if f.hasStateSection then f
      else { f with hasStateSection := true }) : IniFile).getState k
      = f.getState k := by
  split_ifs <;> rfl

/-- **C4.** The persist-null invariant of `save_state`: every update is
applied to the in-memory `cfg` (null or not); with persistence enabled
every non-null update is written into the persisted `state` section;
and a null-valued key never changes the persisted section, whether or
not persistence is enabled. -/
theorem save_state_persist_null (s : PState) (updates : List (String × Val))
    (hnd : (updates.map Prod.fst).Nodup) :
    (∀ k v, (k, v) ∈ updates → Cfg.get (save_state s updates).cfg k = v)
    ∧ (∀ k v, (k, v) ∈ updates → v ≠ .vnone →
        (Cfg.get (updates.foldl dictStep s.cfg) "state").truthy = true →
        (save_state s updates).file.getState k = v)
    ∧ (∀ k, (k, Val.vnone) ∈ updates →
        (save_state s updates).file.getState k = s.file.getState k) := by
  refine ⟨?_, ?_, ?_⟩
  · intro k v hmem
    rw [save_state_cfg]
    exact foldl_dictStep_get_mem updates s.cfg k v hmem hnd
  · intro k v hmem hv hon
    unfold save_state
    rw [if_neg (by simp [hon])]
    show (updates.foldl persistStep _).getState k = v
    obtain ⟨l1, l2, heq⟩ := List.append_of_mem hmem
    subst heq
    rw [List.foldl_append, List.foldl_cons,
      foldl_persistStep_getState_other l2 _ k
        (nodup_keys_split_right l1 l2 k v hnd)]
    show (persistStep _ (k, v)).getState k = v
    unfold persistStep
    rw [if_pos (by simpa using hv)]
    exact IniFile.getState_setState_same _ _ _
  · intro k hmem
    unfold save_state
    by_cases hoff :
      (!(Cfg.get (updates.foldl dictStep s.cfg) "state").truthy) = true
    · rw [if_pos hoff]
    · rw [if_neg hoff]
      show (updates.foldl persistStep _).getState k = s.file.getState k
      obtain ⟨l1, l2, heq⟩ := List.append_of_mem hmem
      subst heq
      rw [List.foldl_append, List.foldl_cons,
        foldl_persistStep_getState_other l2 _ k
          (nodup_keys_split_right l1 l2 k Val.vnone hnd)]
      rw [persistStep_vnone]
      rw [foldl_persistStep_getState_other l1 _ k
        (nodup_keys_split_left l1 l2 k Val.vnone hnd)]
      exact initFile_getState s.file k

theorem save_state_trace (s : PState) (updates : List (String × Val)) :
    (save_state s updates).trace = s.trace := by
  simp only [save_state]
  split <;> rfl

theorem save_state_get_other (s : PState) (updates : List (String × Val))
    (k : String) (h : ∀ kv ∈ updates, kv.1 ≠ k) :
    Cfg.get (save_state s updates).cfg k = Cfg.get s.cfg k := by
  rw [save_state_cfg]
  exact foldl_dictStep_get_other updates s.cfg k h

/-- **C6.** The stage harness: with structured reporting disabled the
stage body is invoked directly and its outcome (exception included)
propagates unmodified; with it enabled a raised exception is caught and
never re-raised, the shared failure code is forced to 1, and a failure
record carrying the exception text and a state snapshot is appended;
and the wrapped stage always returns normally, so the next stage of an
`all` invocation still executes. -/
theorem junit_harness_exception_handling :
    (∀ (nm : String) (t : Int) (body : PState → Outcome) (s : PState),
       (Cfg.get s.cfg "junit").truthy = false →
       junitWrap nm t body s = body s)
    ∧ (∀ (nm : String) (t : Int) (body : PState → Outcome) (s s1 : PState)
         (e : String),
       (Cfg.get s.cfg "junit").truthy = true →
       body s = .exn e s1 →
       junitWrap nm t body s = .ok
         { s1 with
            retcode := 1,
            testcases := s1.testcases ++
              [{ name := nm, classname := "skt", failures := [e],
                 stdoutSnap := some s1.cfg, elapsed := t }] })
    ∧ (∀ (nm : String) (t : Int) (body : PState → Outcome) (s : PState),
       (Cfg.get s.cfg "junit").truthy = true →
       ∃ s', junitWrap nm t body s = .ok s'
         ∧ ∀ g, (junitWrap nm t body s).bind g = g s') := by
  refine ⟨?_, ?_, ?_⟩
  · intro nm t body s h
    unfold junitWrap
    rw [if_neg (by simp [h])]
  · intro nm t body s s1 e hj hb
    simp [junitWrap, hj, hb, TestCase.addFailureInfo, TestCase.isFailure]
  · intro nm t body s hj
    cases hb : body s with
    | ok s1 =>
      simp only [junitWrap, hj, if_true, hb]
      exact ⟨_, rfl, fun g => rfl⟩
    | exn e s1 =>
      simp only [junitWrap, hj, if_true, hb]
      exact ⟨_, rfl, fun g => rfl⟩

/-- Witness for C6: at a concrete state without (resp. with) a junit
directory and a body that raises, the harness propagates
(resp. absorbs) the exception exactly as the theorem states. -/
theorem junit_harness_exception_handling_witness :
    junitWrap "stage" 7 (fun s => Outcome.exn "boom" s)
      { retcode := 0, cfg := [], file := { hasStateSection := false, stateSection := [] },
        testcases := [], trace := [] }
      = Outcome.exn "boom"
        { retcode := 0, cfg := [], file := { hasStateSection := false, stateSection := [] },
          testcases := [], trace := [] }
    ∧ junitWrap "stage" 7 (fun s => Outcome.exn "boom" s)
      { retcode := 0, cfg := [("junit", Val.vstr "dir")],
        file := { hasStateSection := false, stateSection := [] },
        testcases := [], trace := [] }
      = Outcome.ok
        { retcode := 1, cfg := [("junit", Val.vstr "dir")],
          file := { hasStateSection := false, stateSection := [] },
          testcases := [{ name := "stage", classname := "skt",
                          failures := ["boom"],
                          stdoutSnap := some [("junit", Val.vstr "dir")],
                          elapsed := 7 }],
          trace := [] }
    ∧ (∃ s', junitWrap "stage" 7 (fun s => Outcome.exn "boom" s)
        { retcode := 0, cfg := [("junit", Val.vstr "dir")],
          file := { hasStateSection := false, stateSection := [] },
          testcases := [], trace := [] } = .ok s'
        ∧ ∀ g, (junitWrap "stage" 7 (fun s => Outcome.exn "boom" s)
            { retcode := 0, cfg := [("junit", Val.vstr "dir")],
              file := { hasStateSection := false, stateSection := [] },
              testcases := [], trace := [] }).bind g = g s') := by
  refine ⟨junit_harness_exception_handling.1 "stage" 7 _ _ (by decide),
    junit_harness_exception_handling.2.1 "stage" 7 _ _ _ "boom" (by decide) rfl,
    junit_harness_exception_handling.2.2 "stage" 7 _ _ (by decide)⟩

/-- Witness for C3: with the `--state` flag on, `baserepo` present in
both sections loads with the state-section value, and a command-line
`workdir` survives both sections. -/
theorem load_config_state_over_config_witness :
    Cfg.get (load_config_merge [("state", Val.vstr "y")]
        (some [("baserepo", "git://s"), ("basehead", "h")])
        (some [("baserepo", "git://c"), ("krelease", "4.16")]))
      "baserepo" = .vstr "git://s"
    ∧ Cfg.get (load_config_merge [("state", Val.vstr "y"), ("workdir", Val.vstr "wd")]
        (some [("workdir", "sw")]) (some [("workdir", "cw")]))
      "workdir" = .vstr "wd" :=
  ⟨load_config_state_over_config.1 _ _ _ "baserepo" "git://s" "git://c"
      (by decide) (by decide) (by decide) (by decide) (by decide) (by decide)
      (by decide),
    load_config_state_over_config.2 _ _ _ "workdir" (by decide) (by decide)⟩

/-- **C3 (counterexample).** The unconditional precedence claim fails
for falsy values, because both merge loops of `load_config` check
`if not cfg.get(name)` — truthiness, not key presence: an empty
persisted `mergelog` is overwritten by the `config` section (the
loaded value is the config value, not the persisted one), and a falsy
command-line `test` value (`--test 0`) is overridden by a persisted
`test` value. -/
theorem load_config_precedence_counterexample :
    Cfg.get (load_config_merge [("state", Val.vstr "y")]
        (some [("mergelog", "")]) (some [("mergelog", "cfgval")]))
      "mergelog" = .vstr "cfgval"
    ∧ Cfg.get (load_config_merge
        [("state", Val.vstr "y"), ("test", Val.vint 0)]
        (some [("test", "5")]) (some [])) "test" = .vstr "5" := by
  constructor <;> decide

/-- Witness for C4 at a concrete state store: a null-valued `mergelog`
update lands in memory, a non-null `basehead` update is persisted, and
the persisted `mergelog` entry is untouched. -/
theorem save_state_persist_null_witness :
    Cfg.get (save_state
      { retcode := 0,
        cfg := [("state", Val.vstr "y")],
        file := { hasStateSection := true,
                  stateSection := [("mergelog", Val.vstr "keep")] },
        testcases := [], trace := [] }
      [("basehead", Val.vstr "h"), ("mergelog", Val.vnone)]).cfg "mergelog"
        = Val.vnone
    ∧ (save_state
      { retcode := 0,
        cfg := [("state", Val.vstr "y")],
        file := { hasStateSection := true,
                  stateSection := [("mergelog", Val.vstr "keep")] },
        testcases := [], trace := [] }
      [("basehead", Val.vstr "h"), ("mergelog", Val.vnone)]).file.getState
        "basehead" = Val.vstr "h"
    ∧ (save_state
      { retcode := 0,
        cfg := [("state", Val.vstr "y")],
        file := { hasStateSection := true,
                  stateSection := [("mergelog", Val.vstr "keep")] },
        testcases := [], trace := [] }
      [("basehead", Val.vstr "h"), ("mergelog", Val.vnone)]).file.getState
        "mergelog"
        = IniFile.getState
            { hasStateSection := true,
              stateSection := [("mergelog", Val.vstr "keep")] } "mergelog" :=
  ⟨(save_state_persist_null _ _ (by decide)).1 "mergelog" Val.vnone (by decide),
   (save_state_persist_null _ _ (by decide)).2.1 "basehead" (Val.vstr "h")
      (by decide) (by decide) (by decide),
   (save_state_persist_null _ _ (by decide)).2.2 "mergelog" (by decide)⟩

/-- Witness for C5 at concrete persisted values. -/
theorem load_config_indexed_reconstruction_witness :
    (∃ l, Cfg.get (load_config_merge [("state", Val.vstr "y")]
        (some [("jobid_00", "J1"), ("jobid_01", "J2")]) none) "jobs" = .vset l
      ∧ ∀ x, x ∈ l ↔ (x = "J1" ∨ x = "J2"))
    ∧ Cfg.get (load_config_merge [("state", Val.vstr "y")]
        (some [("mergerepo_00", "u1"), ("mergehead_00", "h1"),
               ("mergerepo_01", "u2"), ("mergehead_01", "h2")]) none)
        "mergerepos" = .vstrs ["u1", "u2"]
    ∧ Cfg.get (load_config_merge [("state", Val.vstr "y")]
        (some [("mergerepo_00", "u1"), ("mergehead_00", "h1"),
               ("mergerepo_01", "u2"), ("mergehead_01", "h2")]) none)
        "mergeheads" = .vstrs ["h1", "h2"] :=
  load_config_indexed_reconstruction [("state", Val.vstr "y")]
    "J1" "J2" "u1" "h1" "u2" "h2"
    (by decide) (by decide) (by decide) (by decide) (by decide) (by decide)
    (by decide) (by decide) (by decide) (by decide)

theorem pyStartsWith_append (a b : String) :
    pyStartsWith (a ++ b) a = true := by
  unfold pyStartsWith
  rw [String.data_append]
  exact List.isPrefixOf_iff_prefix.mpr (List.prefix_append _ _)

theorem jobsLoop_get_other (jobs : List String) (idx : Nat) (s : PState)
    (k : String) (hk : pyStartsWith k "jobid_" = false) :
    Cfg.get (jobsLoop jobs idx s).cfg k = Cfg.get s.cfg k := by
  induction jobs generalizing idx s with
  | nil => rfl
  | cons j rest ih =>
    rw [jobsLoop, ih]
    apply save_state_get_other
    intro kv hkv
    rw [List.mem_singleton] at hkv
    subst hkv
    intro heq
    have heq2 : ("jobid_" ++ toString idx : String) = k := heq
    have hp := pyStartsWith_append "jobid_" (toString idx)
    rw [heq2, hk] at hp
    exact Bool.noConfusion hp

theorem jobsLoop_retcode (jobs : List String) (idx : Nat) (s : PState) :
    (jobsLoop jobs idx s).retcode = s.retcode := by
  induction jobs generalizing idx s with
  | nil => rfl
  | cons j rest ih => rw [jobsLoop, ih, save_state_retcode]

theorem jobsLoop_trace (jobs : List String) (idx : Nat) (s : PState) :
    (jobsLoop jobs idx s).trace = s.trace := by
  induction jobs generalizing idx s with
  | nil => rfl
  | cons j rest ih => rw [jobsLoop, ih, save_state_trace]

theorem jobsLoop_testcases (jobs : List String) (idx : Nat) (s : PState) :
    (jobsLoop jobs idx s).testcases = s.testcases := by
  induction jobs generalizing idx s with
  | nil => rfl
  | cons j rest ih => rw [jobsLoop, ih, save_state_testcases]

/-- **C1.** The baseline-fallback algorithm of `cmd_run`: when the
primary run's result is non-zero, a `basehead` is recorded that differs
from `buildhead`, and a publisher is configured, a second run is
submitted against the baseline artifact's derived URL
(`geturl(basehead + ".tar.gz")`) on the host the primary run used
(`get_mfhost()`) with `reschedule=False`; if that baseline run returns
non-zero the overall result becomes 0, and if it returns 0 the original
non-zero result stands; `baseretcode` and the final `retcode` are
recorded in state. -/
theorem cmd_run_baseline_fallback (penv : PubEnv) (env : RunEnv) (s : PState)
    (htest : Cfg.get s.cfg "test" = .vnone)
    (hrunner : (Cfg.get s.cfg "runner").truthy = true)
    (hres : env.runRes ≠ 0)
    (hbase : (Cfg.get s.cfg "basehead").truthy = true)
    (hpub : (Cfg.get s.cfg "publisher").truthy = true)
    (hdiff : Cfg.get s.cfg "basehead" ≠ Cfg.get s.cfg "buildhead") :
    (cmd_run_body penv env s).isOk = true
    ∧ (cmd_run_body penv env s).stateOf.trace = s.trace ++
        [.runnerRun ((Cfg.get s.cfg "buildurl").pyStr) none
           (Cfg.get s.cfg "uid") none,
         .runnerRun (penv.geturl ((Cfg.get s.cfg "basehead").pyStr ++ ".tar.gz"))
           (some env.mfhost) (.vstr "baseline check") (some false)]
    ∧ Cfg.get (cmd_run_body penv env s).stateOf.cfg "baseretcode"
        = .vint env.baseRunRes
    ∧ (cmd_run_body penv env s).stateOf.retcode
        = (if env.baseRunRes = 0 then env.runRes else 0)
    ∧ Cfg.get (cmd_run_body penv env s).stateOf.cfg "retcode"
        = .vint (if env.baseRunRes = 0 then env.runRes else 0) := by
  have hbuildhead :
      Cfg.get s.cfg "basehead" != Cfg.get s.cfg "buildhead" := by
    simp [bne_iff_ne, hdiff]
  by_cases hb : env.baseRunRes = 0 <;>
    simp +decide [cmd_run_body, Outcome.isOk, Outcome.stateOf, htest, hrunner,
      hres, hbase, hpub, hbuildhead, hb, jobsLoop_retcode, jobsLoop_get_other,
      jobsLoop_trace, pushCall, save_state_cfg, save_state_retcode,
      save_state_trace, dictStep, Cfg.get_set_ne, Cfg.get_set_same,
      bne_iff_ne]

/-- Witness for C1: a failing primary run (result 1), a recorded
differing baseline, a configured publisher, and a failing baseline run
(result 2) override the overall result to 0. -/
theorem cmd_run_baseline_fallback_witness :
    (cmd_run_body
      { publishUrl := fun p => "pub://" ++ p, geturl := fun f => "url://" ++ f }
      { runRes := 1, jobs := ["j1"], mfhost := "host1", baseRunRes := 2 }
      { retcode := 0,
        cfg := [("runner", Val.vstrs ["beaker", "rcfg"]),
                ("basehead", Val.vstr "base"), ("buildhead", Val.vstr "build"),
                ("publisher", Val.vstrs ["cp", "/dest", "http://u"]),
                ("buildurl", Val.vstr "http://b"), ("uid", Val.vstr "[git]")],
        file := { hasStateSection := false, stateSection := [] },
        testcases := [], trace := [] }).isOk = true
    ∧ (cmd_run_body
      { publishUrl := fun p => "pub://" ++ p, geturl := fun f => "url://" ++ f }
      { runRes := 1, jobs := ["j1"], mfhost := "host1", baseRunRes := 2 }
      { retcode := 0,
        cfg := [("runner", Val.vstrs ["beaker", "rcfg"]),
                ("basehead", Val.vstr "base"), ("buildhead", Val.vstr "build"),
                ("publisher", Val.vstrs ["cp", "/dest", "http://u"]),
                ("buildurl", Val.vstr "http://b"), ("uid", Val.vstr "[git]")],
        file := { hasStateSection := false, stateSection := [] },
        testcases := [], trace := [] }).stateOf.trace = [] ++
        [.runnerRun "http://b" none (Val.vstr "[git]") none,
         .runnerRun ("url://" ++ ("base" ++ ".tar.gz")) (some "host1")
           (.vstr "baseline check") (some false)]
    ∧ Cfg.get (cmd_run_body
      { publishUrl := fun p => "pub://" ++ p, geturl := fun f => "url://" ++ f }
      { runRes := 1, jobs := ["j1"], mfhost := "host1", baseRunRes := 2 }
      { retcode := 0,
        cfg := [("runner", Val.vstrs ["beaker", "rcfg"]),
                ("basehead", Val.vstr "base"), ("buildhead", Val.vstr "build"),
                ("publisher", Val.vstrs ["cp", "/dest", "http://u"]),
                ("buildurl", Val.vstr "http://b"), ("uid", Val.vstr "[git]")],
        file := { hasStateSection := false, stateSection := [] },
        testcases := [], trace := [] }).stateOf.cfg "baseretcode" = .vint 2
    ∧ (cmd_run_body
      { publishUrl := fun p => "pub://" ++ p, geturl := fun f => "url://" ++ f }
      { runRes := 1, jobs := ["j1"], mfhost := "host1", baseRunRes := 2 }
      { retcode := 0,
        cfg := [("runner", Val.vstrs ["beaker", "rcfg"]),
                ("basehead", Val.vstr "base"), ("buildhead", Val.vstr "build"),
                ("publisher", Val.vstrs ["cp", "/dest", "http://u"]),
                ("buildurl", Val.vstr "http://b"), ("uid", Val.vstr "[git]")],
        file := { hasStateSection := false, stateSection := [] },
        testcases := [], trace := [] }).stateOf.retcode
        = (if (2 : Int) = 0 then 1 else 0)
    ∧ Cfg.get (cmd_run_body
      { publishUrl := fun p => "pub://" ++ p, geturl := fun f => "url://" ++ f }
      { runRes := 1, jobs := ["j1"], mfhost := "host1", baseRunRes := 2 }
      { retcode := 0,
        cfg := [("runner", Val.vstrs ["beaker", "rcfg"]),
                ("basehead", Val.vstr "base"), ("buildhead", Val.vstr "build"),
                ("publisher", Val.vstrs ["cp", "/dest", "http://u"]),
                ("buildurl", Val.vstr "http://b"), ("uid", Val.vstr "[git]")],
        file := { hasStateSection := false, stateSection := [] },
        testcases := [], trace := [] }).stateOf.cfg "retcode"
        = .vint (if (2 : Int) = 0 then 1 else 0) :=
  cmd_run_baseline_fallback _ _ _ (by decide) (by decide) (by decide)
    (by decide) (by decide) (by decide)

/-- **C2 (counterexample).** An `all` invocation with the run stage
stubbed by value 2 and no `wait` flag exits with code 0, not 2: the run
stub records `retcode = 2` in state only and never assigns the shared
result code, and `main` exits with the shared code.  Report is indeed
never invoked. -/
theorem cmd_all_stub2_exit_counterexample :
    mainExit (cmd_all
      { mergelog := "/wd/merge.log", treeHead := fun _ => "h",
        commitDate := "d", gitRes := fun _ => .ret 0,
        patchRes := fun _ => .ret (), pwRes := fun _ => .ret (),
        kpath := "/wd", buildinfo := "/wd/info.csv", commitHash := "c" }
      { mktgzRes := .ret "k.tar.gz", buildlog := "/wd/build.log",
        cfgpath := "/wd/.config", krelease := "4.16", buildArch := "x86_64" }
      { publishUrl := fun p => "url/" ++ p, geturl := fun f => "url/" ++ f }
      { runRes := 0, jobs := [], mfhost := "h", baseRunRes := 0 }
      { reporterResolves := true }
      "20180101" 0
      { retcode := 0,
        cfg := [("test", Val.vint 2), ("tarpkg", Val.vstr "t.tar.gz"),
                ("publisher", Val.vstrs ["cp", "/d", "u"])],
        file := { hasStateSection := false, stateSection := [] },
        testcases := [], trace := [] }) = 0
    ∧ (0 : Int) ≠ 2
    ∧ Call.report ∉ (cmd_all
      { mergelog := "/wd/merge.log", treeHead := fun _ => "h",
        commitDate := "d", gitRes := fun _ => .ret 0,
        patchRes := fun _ => .ret (), pwRes := fun _ => .ret (),
        kpath := "/wd", buildinfo := "/wd/info.csv", commitHash := "c" }
      { mktgzRes := .ret "k.tar.gz", buildlog := "/wd/build.log",
        cfgpath := "/wd/.config", krelease := "4.16", buildArch := "x86_64" }
      { publishUrl := fun p => "url/" ++ p, geturl := fun f => "url/" ++ f }
      { runRes := 0, jobs := [], mfhost := "h", baseRunRes := 0 }
      { reporterResolves := true }
      "20180101" 0
      { retcode := 0,
        cfg := [("test", Val.vint 2), ("tarpkg", Val.vstr "t.tar.gz"),
                ("publisher", Val.vstrs ["cp", "/d", "u"])],
        file := { hasStateSection := false, stateSection := [] },
        testcases := [], trace := [] }).stateOf.trace
    ∧ Cfg.get (cmd_all
      { mergelog := "/wd/merge.log", treeHead := fun _ => "h",
        commitDate := "d", gitRes := fun _ => .ret 0,
        patchRes := fun _ => .ret (), pwRes := fun _ => .ret (),
        kpath := "/wd", buildinfo := "/wd/info.csv", commitHash := "c" }
      { mktgzRes := .ret "k.tar.gz", buildlog := "/wd/build.log",
        cfgpath := "/wd/.config", krelease := "4.16", buildArch := "x86_64" }
      { publishUrl := fun p => "url/" ++ p, geturl := fun f => "url/" ++ f }
      { runRes := 0, jobs := [], mfhost := "h", baseRunRes := 0 }
      { reporterResolves := true }
      "20180101" 0
      { retcode := 0,
        cfg := [("test", Val.vint 2), ("tarpkg", Val.vstr "t.tar.gz"),
                ("publisher", Val.vstrs ["cp", "/d", "u"])],
        file := { hasStateSection := false, stateSection := [] },
        testcases := [], trace := [] }).stateOf.cfg "retcode" = .vint 2 := by
  refine ⟨by decide, by decide, by decide, by decide⟩

theorem cleanupFile_cfg (s : PState) : (cleanupFile s).cfg = s.cfg := by
  unfold cleanupFile
  split_ifs <;> rfl

theorem cleanupFile_retcode (s : PState) :
    (cleanupFile s).retcode = s.retcode := by
  unfold cleanupFile
  split_ifs <;> rfl

theorem cleanupFile_testcases (s : PState) :
    (cleanupFile s).testcases = s.testcases := by
  unfold cleanupFile
  split_ifs <;> rfl

theorem cleanupFile_trace (s : PState) : (cleanupFile s).trace = s.trace := by
  unfold cleanupFile
  split_ifs <;> rfl

theorem cleanupUnlink_cfg (k : String) (s : PState) :
    (cleanupUnlink k s).cfg = s.cfg := by
  unfold cleanupUnlink pushCall
  split_ifs <;> rfl

theorem cleanupUnlink_retcode (k : String) (s : PState) :
    (cleanupUnlink k s).retcode = s.retcode := by
  unfold cleanupUnlink pushCall
  split_ifs <;> rfl

theorem cleanupUnlink_testcases (k : String) (s : PState) :
    (cleanupUnlink k s).testcases = s.testcases := by
  unfold cleanupUnlink pushCall
  split_ifs <;> rfl

theorem cleanupUnlink_no_report (k : String) (s : PState)
    (h : Call.report ∉ s.trace) :
    Call.report ∉ (cleanupUnlink k s).trace := by
  unfold cleanupUnlink pushCall
  split_ifs <;> simp_all

theorem cleanupWipe_cfg (s : PState) : (cleanupWipe s).cfg = s.cfg := by
  unfold cleanupWipe pushCall
  split_ifs <;> rfl

theorem cleanupWipe_retcode (s : PState) :
    (cleanupWipe s).retcode = s.retcode := by
  unfold cleanupWipe pushCall
  split_ifs <;> rfl

theorem cleanupWipe_testcases (s : PState) :
    (cleanupWipe s).testcases = s.testcases := by
  unfold cleanupWipe pushCall
  split_ifs <;> rfl

theorem cleanupWipe_no_report (s : PState) (h : Call.report ∉ s.trace) :
    Call.report ∉ (cleanupWipe s).trace := by
  unfold cleanupWipe pushCall
  split_ifs <;> simp_all

theorem cmd_cleanup_isOk (s : PState) : (cmd_cleanup_body s).isOk = true := rfl

theorem cmd_cleanup_cfg (s : PState) :
    (cmd_cleanup_body s).stateOf.cfg = s.cfg := by
  unfold cmd_cleanup_body
  show (cleanupWipe _).cfg = s.cfg
  rw [cleanupWipe_cfg, cleanupUnlink_cfg, cleanupUnlink_cfg, cleanupFile_cfg]

theorem cmd_cleanup_retcode (s : PState) :
    (cmd_cleanup_body s).stateOf.retcode = s.retcode := by
  unfold cmd_cleanup_body
  show (cleanupWipe _).retcode = s.retcode
  rw [cleanupWipe_retcode, cleanupUnlink_retcode, cleanupUnlink_retcode,
    cleanupFile_retcode]

theorem cmd_cleanup_testcases (s : PState) :
    (cmd_cleanup_body s).stateOf.testcases = s.testcases := by
  unfold cmd_cleanup_body
  show (cleanupWipe _).testcases = s.testcases
  rw [cleanupWipe_testcases, cleanupUnlink_testcases, cleanupUnlink_testcases,
    cleanupFile_testcases]

theorem mainExit_cmd_cleanup (s : PState) :
    mainExit (cmd_cleanup_body s) = s.retcode := by
  unfold cmd_cleanup_body
  show (cleanupWipe _).retcode = s.retcode
  rw [cleanupWipe_retcode, cleanupUnlink_retcode, cleanupUnlink_retcode,
    cleanupFile_retcode]

theorem cmd_cleanup_no_report (s : PState) (h : Call.report ∉ s.trace) :
    Call.report ∉ (cmd_cleanup_body s).stateOf.trace := by
  unfold cmd_cleanup_body
  show Call.report ∉ (cleanupWipe _).trace
  apply cleanupWipe_no_report
  apply cleanupUnlink_no_report
  apply cleanupUnlink_no_report
  rw [cleanupFile_trace]
  exact h

/-- **C2 (amended).** An `all` invocation with the run stage stubbed by
stub value 2, without the `wait` flag and without structured reporting,
never invokes Report and terminates with process exit code 0: the run
stub records `retcode = 2` in the state dictionary but never assigns
the shared result code, and `main` exits with the shared code, still 0. -/
theorem cmd_all_stub2_exit (me : MergeEnv) (be : BuildEnv) (pe : PubEnv)
    (re : RunEnv) (rpe : ReportEnv) (tstamp : String) (t : Int) (s : PState)
    (htest : Cfg.get s.cfg "test" = .vint 2)
    (hwait : (Cfg.get s.cfg "wait").truthy = false)
    (hjunit : (Cfg.get s.cfg "junit").truthy = false)
    (hpub : (Cfg.get s.cfg "publisher").truthy = true)
    (htar : (Cfg.get s.cfg "tarpkg").truthy = true)
    (hret : s.retcode = 0)
    (hrep : Call.report ∉ s.trace) :
    (cmd_all me be pe re rpe tstamp t s).isOk = true
    ∧ mainExit (cmd_all me be pe re rpe tstamp t s) = 0
    ∧ Cfg.get (cmd_all me be pe re rpe tstamp t s).stateOf.cfg "retcode"
        = .vint 2
    ∧ Call.report ∉ (cmd_all me be pe re rpe tstamp t s).stateOf.trace := by
  refine ⟨?_, ?_, ?_, ?_⟩ <;>
    simp +decide [cmd_all, junitWrap, Outcome.bind, cmd_merge_body,
      cmd_build_body, cmd_publish_body, cmd_run_body, htest, hwait, hjunit,
      hpub, htar, hret, save_state_get_other, save_state_retcode,
      save_state_trace, save_state_cfg, dictStep, Cfg.get_set_ne,
      Cfg.get_set_same, cmd_cleanup_isOk, cmd_cleanup_cfg,
      cmd_cleanup_retcode, mainExit_cmd_cleanup, cmd_cleanup_no_report, hrep]

/-- Witness for the amended C2 at the same concrete configuration as
the counterexample. -/
theorem cmd_all_stub2_exit_witness :
    (cmd_all
      { mergelog := "/wd/merge.log", treeHead := fun _ => "h",
        commitDate := "d", gitRes := fun _ => .ret 0,
        patchRes := fun _ => .ret (), pwRes := fun _ => .ret (),
        kpath := "/wd", buildinfo := "/wd/info.csv", commitHash := "c" }
      { mktgzRes := .ret "k.tar.gz", buildlog := "/wd/build.log",
        cfgpath := "/wd/.config", krelease := "4.16", buildArch := "x86_64" }
      { publishUrl := fun p => "url/" ++ p, geturl := fun f => "url/" ++ f }
      { runRes := 0, jobs := [], mfhost := "h", baseRunRes := 0 }
      { reporterResolves := true }
      "20180101" 0
      { retcode := 0,
        cfg := [("test", Val.vint 2), ("tarpkg", Val.vstr "t.tar.gz"),
                ("publisher", Val.vstrs ["cp", "/d", "u"])],
        file := { hasStateSection := false, stateSection := [] },
        testcases := [], trace := [] }).isOk = true
    ∧ mainExit (cmd_all
      { mergelog := "/wd/merge.log", treeHead := fun _ => "h",
        commitDate := "d", gitRes := fun _ => .ret 0,
        patchRes := fun _ => .ret (), pwRes := fun _ => .ret (),
        kpath := "/wd", buildinfo := "/wd/info.csv", commitHash := "c" }
      { mktgzRes := .ret "k.tar.gz", buildlog := "/wd/build.log",
        cfgpath := "/wd/.config", krelease := "4.16", buildArch := "x86_64" }
      { publishUrl := fun p => "url/" ++ p, geturl := fun f => "url/" ++ f }
      { runRes := 0, jobs := [], mfhost := "h", baseRunRes := 0 }
      { reporterResolves := true }
      "20180101" 0
      { retcode := 0,
        cfg := [("test", Val.vint 2), ("tarpkg", Val.vstr "t.tar.gz"),
                ("publisher", Val.vstrs ["cp", "/d", "u"])],
        file := { hasStateSection := false, stateSection := [] },
        testcases := [], trace := [] }) = 0
    ∧ Cfg.get (cmd_all
      { mergelog := "/wd/merge.log", treeHead := fun _ => "h",
        commitDate := "d", gitRes := fun _ => .ret 0,
        patchRes := fun _ => .ret (), pwRes := fun _ => .ret (),
        kpath := "/wd", buildinfo := "/wd/info.csv", commitHash := "c" }
      { mktgzRes := .ret "k.tar.gz", buildlog := "/wd/build.log",
        cfgpath := "/wd/.config", krelease := "4.16", buildArch := "x86_64" }
      { publishUrl := fun p => "url/" ++ p, geturl := fun f => "url/" ++ f }
      { runRes := 0, jobs := [], mfhost := "h", baseRunRes := 0 }
      { reporterResolves := true }
      "20180101" 0
      { retcode := 0,
        cfg := [("test", Val.vint 2), ("tarpkg", Val.vstr "t.tar.gz"),
                ("publisher", Val.vstrs ["cp", "/d", "u"])],
        file := { hasStateSection := false, stateSection := [] },
        testcases := [], trace := [] }).stateOf.cfg "retcode" = .vint 2
    ∧ Call.report ∉ (cmd_all
      { mergelog := "/wd/merge.log", treeHead := fun _ => "h",
        commitDate := "d", gitRes := fun _ => .ret 0,
        patchRes := fun _ => .ret (), pwRes := fun _ => .ret (),
        kpath := "/wd", buildinfo := "/wd/info.csv", commitHash := "c" }
      { mktgzRes := .ret "k.tar.gz", buildlog := "/wd/build.log",
        cfgpath := "/wd/.config", krelease := "4.16", buildArch := "x86_64" }
      { publishUrl := fun p => "url/" ++ p, geturl := fun f => "url/" ++ f }
      { runRes := 0, jobs := [], mfhost := "h", baseRunRes := 0 }
      { reporterResolves := true }
      "20180101" 0
      { retcode := 0,
        cfg := [("test", Val.vint 2), ("tarpkg", Val.vstr "t.tar.gz"),
                ("publisher", Val.vstrs ["cp", "/d", "u"])],
        file := { hasStateSection := false, stateSection := [] },
        testcases := [], trace := [] }).stateOf.trace :=
  cmd_all_stub2_exit _ _ _ _ _ _ _ _ (by decide) (by decide) (by decide)
    (by decide) (by decide) (by decide) (by decide)

theorem save_state_get_single (s : PState) (k : String) (v : Val) :
    Cfg.get (save_state s [(k, v)]).cfg k = v := by
  rw [save_state_cfg]
  simp [dictStep, Cfg.get_set_same]

theorem mergeRefsLoop_earlyRet (env : MergeEnv) (bhead : String)
    (r1 : List (List String)) (mb : List String) (r2 : List (List String))
    (idx : Nat) (utypes : List String) (s : PState) (c : Int)
    (h0 : ∀ j, j < r1.length → env.gitRes (idx + j) = .ret 0)
    (hc : env.gitRes (idx + r1.length) = .ret c) (hcne : c ≠ 0) :
    ∃ s', mergeRefsLoop env bhead (r1 ++ mb :: r2) idx utypes s = .earlyRet s'
      ∧ s'.retcode = c
      ∧ s'.trace.filter Call.isPatchApply = s.trace.filter Call.isPatchApply
      ∧ s'.testcases = s.testcases := by
  induction r1 generalizing idx utypes s with
  | nil =>
    rw [List.nil_append, mergeRefsLoop]
    have hc0 : env.gitRes idx = .ret c := by simpa using hc
    simp only [hc0]
    have hcb : (c != 0) = true := by simp [bne_iff_ne, hcne]
    rw [if_pos hcb]
    refine ⟨_, rfl, rfl, ?_, ?_⟩
    · simp [pushCall, save_state_trace, Call.isPatchApply]
    · simp [pushCall, save_state_testcases]
  | cons rv r1x ih =>
    rw [List.cons_append, mergeRefsLoop]
    have h00 : env.gitRes idx = .ret 0 := by
      have := h0 0 (by simp)
      simpa using this
    simp only [h00, bne_self_eq_false, Bool.false_eq_true, if_false]
    have h0x : ∀ j, j < r1x.length → env.gitRes (idx + 1 + j) = .ret 0 := by
      intro j hj
      have := h0 (j + 1) (by simpa using Nat.succ_lt_succ hj)
      rwa [show idx + (j + 1) = idx + 1 + j by omega] at this
    have hcx : env.gitRes (idx + 1 + r1x.length) = .ret c := by
      have := hc
      rwa [show idx + (rv :: r1x).length = idx + 1 + r1x.length by
        simp
        omega] at this
    obtain ⟨s', heq, hrc, htr, htc⟩ :=
      ih (idx + 1) (utypes ++ ["[git]"]) _ h0x hcx
    refine ⟨s', heq, hrc, ?_, ?_⟩
    · rw [htr]
      simp [pushCall, save_state_trace, Call.isPatchApply]
    · rw [htc]
      simp [pushCall, save_state_testcases]

theorem mergeRefsLoop_raised (env : MergeEnv) (bhead : String)
    (r1 : List (List String)) (mb : List String) (r2 : List (List String))
    (idx : Nat) (utypes : List String) (s : PState) (e : String)
    (h0 : ∀ j, j < r1.length → env.gitRes (idx + j) = .ret 0)
    (he : env.gitRes (idx + r1.length) = .raise e) :
    ∃ s', mergeRefsLoop env bhead (r1 ++ mb :: r2) idx utypes s
      = .raised e s' := by
  induction r1 generalizing idx utypes s with
  | nil =>
    rw [List.nil_append, mergeRefsLoop]
    have he0 : env.gitRes idx = .raise e := by simpa using he
    simp only [he0]
    exact ⟨_, rfl⟩
  | cons rv r1x ih =>
    rw [List.cons_append, mergeRefsLoop]
    have h00 : env.gitRes idx = .ret 0 := by
      have := h0 0 (by simp)
      simpa using this
    simp only [h00, bne_self_eq_false, Bool.false_eq_true, if_false]
    have h0x : ∀ j, j < r1x.length → env.gitRes (idx + 1 + j) = .ret 0 := by
      intro j hj
      have := h0 (j + 1) (by simpa using Nat.succ_lt_succ hj)
      rwa [show idx + (j + 1) = idx + 1 + j by omega] at this
    have hex : env.gitRes (idx + 1 + r1x.length) = .raise e := by
      have := he
      rwa [show idx + (rv :: r1x).length = idx + 1 + r1x.length by
        simp
        omega] at this
    exact ih (idx + 1) (utypes ++ ["[git]"]) _ h0x hex

/-- **C7.** Merge-stage failure handling: (i) when the first failing
step of category (1) is a remote merge-ref returning a non-zero result,
`cmd_merge` returns normally with that non-zero result as the shared
code and no local-patch or patchwork-patch application is attempted;
(ii) whenever `cmd_merge` lets an exception escape, the merge-log path
was persisted into the in-memory state first; (iii) an exception raised
by a merge-ref call is re-raised with the same exception. -/
theorem cmd_merge_failure_handling :
    (∀ (env : MergeEnv) (s : PState) (r1 : List (List String))
       (mb : List String) (r2 : List (List String)) (c : Int),
       Cfg.get s.cfg "test" = .vnone →
       (Cfg.get s.cfg "merge_ref").asRefs = r1 ++ mb :: r2 →
       (∀ j, j < r1.length → env.gitRes j = .ret 0) →
       env.gitRes r1.length = .ret c →
       c ≠ 0 →
       (cmd_merge_body env s).isOk = true
       ∧ (cmd_merge_body env s).stateOf.retcode = c
       ∧ (cmd_merge_body env s).stateOf.trace.filter Call.isPatchApply
           = s.trace.filter Call.isPatchApply)
    ∧ (∀ (env : MergeEnv) (s : PState) (e : String) (sx : PState),
       cmd_merge_body env s = .exn e sx →
       Cfg.get sx.cfg "mergelog" = .vstr env.mergelog)
    ∧ (∀ (env : MergeEnv) (s : PState) (r1 : List (List String))
       (mb : List String) (r2 : List (List String)) (e : String),
       Cfg.get s.cfg "test" = .vnone →
       (Cfg.get s.cfg "merge_ref").asRefs = r1 ++ mb :: r2 →
       (∀ j, j < r1.length → env.gitRes j = .ret 0) →
       env.gitRes r1.length = .raise e →
       ∃ sx, cmd_merge_body env s = .exn e sx) := by
  refine ⟨?_, ?_, ?_⟩
  · intro env s r1 mb r2 c htest hrefs h0 hc hcne
    have htb : (Cfg.get s.cfg "test" != Val.vnone) = false := by
      simp [htest]
    unfold cmd_merge_body
    rw [htb]
    simp only [Bool.false_eq_true, if_false]
    have hpres : (Cfg.get (save_state (pushCall s .checkout)
        [("baserepo", Cfg.get (pushCall s .checkout).cfg "baserepo"),
         ("basehead", .vstr (env.treeHead 0)),
         ("commitdate", .vstr env.commitDate)]).cfg "merge_ref").asRefs
        = r1 ++ mb :: r2 := by
      rw [save_state_get_other]
      · exact hrefs
      · intro kv hkv
        simp only [List.mem_cons, List.not_mem_nil, or_false] at hkv
        rcases hkv with h | h | h <;> subst h <;> simp +decide
    rw [hpres]
    have h0z : ∀ j, j < r1.length → env.gitRes (0 + j) = .ret 0 := by
      intro j hj
      rw [Nat.zero_add]
      exact h0 j hj
    have hcz : env.gitRes (0 + r1.length) = .ret c := by
      rw [Nat.zero_add]
      exact hc
    obtain ⟨s', heq, hrc, htr, _⟩ :=
      mergeRefsLoop_earlyRet env (env.treeHead 0) r1 mb r2 0 [] _ c h0z hcz hcne
    rw [heq]
    refine ⟨rfl, hrc, ?_⟩
    rw [show (Outcome.ok s').stateOf = s' from rfl, htr]
    simp [pushCall, save_state_trace, Call.isPatchApply]
  · intro env s e sx hx
    unfold cmd_merge_body at hx
    dsimp only at hx
    iterate 6 (all_goals try split at hx)
    all_goals
      first
      | exact Outcome.noConfusion hx
      | (simp only [Outcome.exn.injEq] at hx
         rw [← hx.2]
         exact save_state_get_single _ _ _)
  · intro env s r1 mb r2 e htest hrefs h0 he
    have htb : (Cfg.get s.cfg "test" != Val.vnone) = false := by
      simp [htest]
    unfold cmd_merge_body
    rw [htb]
    simp only [Bool.false_eq_true, if_false]
    have hpres : (Cfg.get (save_state (pushCall s .checkout)
        [("baserepo", Cfg.get (pushCall s .checkout).cfg "baserepo"),
         ("basehead", .vstr (env.treeHead 0)),
         ("commitdate", .vstr env.commitDate)]).cfg "merge_ref").asRefs
        = r1 ++ mb :: r2 := by
      rw [save_state_get_other]
      · exact hrefs
      · intro kv hkv
        simp only [List.mem_cons, List.not_mem_nil, or_false] at hkv
        rcases hkv with h | h | h <;> subst h <;> simp +decide
    rw [hpres]
    have h0z : ∀ j, j < r1.length → env.gitRes (0 + j) = .ret 0 := by
      intro j hj
      rw [Nat.zero_add]
      exact h0 j hj
    have hez : env.gitRes (0 + r1.length) = .raise e := by
      rw [Nat.zero_add]
      exact he
    obtain ⟨s', heq⟩ :=
      mergeRefsLoop_raised env (env.treeHead 0) r1 mb r2 0 [] _ e h0z hez
    rw [heq]
    exact ⟨_, rfl⟩

/-- Witness for C7: a second merge-ref failing with result 5 aborts
patch application; a raising merge-ref persists the merge-log path and
re-raises the same exception. -/
theorem cmd_merge_failure_handling_witness :
    ((cmd_merge_body
      { mergelog := "/lg", treeHead := fun _ => "h0", commitDate := "cd",
        gitRes := fun i => if i = 0 then .ret 0 else .ret 5,
        patchRes := fun _ => .ret (), pwRes := fun _ => .ret (),
        kpath := "/k", buildinfo := "bi", commitHash := "ch" }
      { retcode := 0, cfg := [("merge_ref", Val.vrefs [["u0"], ["u1"]])],
        file := { hasStateSection := false, stateSection := [] },
        testcases := [], trace := [] }).isOk = true
    ∧ (cmd_merge_body
      { mergelog := "/lg", treeHead := fun _ => "h0", commitDate := "cd",
        gitRes := fun i => if i = 0 then .ret 0 else .ret 5,
        patchRes := fun _ => .ret (), pwRes := fun _ => .ret (),
        kpath := "/k", buildinfo := "bi", commitHash := "ch" }
      { retcode := 0, cfg := [("merge_ref", Val.vrefs [["u0"], ["u1"]])],
        file := { hasStateSection := false, stateSection := [] },
        testcases := [], trace := [] }).stateOf.retcode = 5
    ∧ (cmd_merge_body
      { mergelog := "/lg", treeHead := fun _ => "h0", commitDate := "cd",
        gitRes := fun i => if i = 0 then .ret 0 else .ret 5,
        patchRes := fun _ => .ret (), pwRes := fun _ => .ret (),
        kpath := "/k", buildinfo := "bi", commitHash := "ch" }
      { retcode := 0, cfg := [("merge_ref", Val.vrefs [["u0"], ["u1"]])],
        file := { hasStateSection := false, stateSection := [] },
        testcases := [], trace := [] }).stateOf.trace.filter Call.isPatchApply
      = ([] : List Call).filter Call.isPatchApply)
    ∧ Cfg.get ((cmd_merge_body
      { mergelog := "/lg", treeHead := fun _ => "h0", commitDate := "cd",
        gitRes := fun _ => .raise "boom",
        patchRes := fun _ => .ret (), pwRes := fun _ => .ret (),
        kpath := "/k", buildinfo := "bi", commitHash := "ch" }
      { retcode := 0, cfg := [("merge_ref", Val.vrefs [["u0"], ["u1"]])],
        file := { hasStateSection := false, stateSection := [] },
        testcases := [], trace := [] }).stateOf).cfg "mergelog"
      = .vstr "/lg"
    ∧ (∃ sx, cmd_merge_body
      { mergelog := "/lg", treeHead := fun _ => "h0", commitDate := "cd",
        gitRes := fun _ => .raise "boom",
        patchRes := fun _ => .ret (), pwRes := fun _ => .ret (),
        kpath := "/k", buildinfo := "bi", commitHash := "ch" }
      { retcode := 0, cfg := [("merge_ref", Val.vrefs [["u0"], ["u1"]])],
        file := { hasStateSection := false, stateSection := [] },
        testcases := [], trace := [] } = .exn "boom" sx) :=
  ⟨cmd_merge_failure_handling.1 _ _ [["u0"]] ["u1"] [] 5 (by decide)
      (by decide)
      (by
        intro j hj
        have hj0 : j = 0 := by
          simp only [List.length_cons, List.length_nil] at hj
          omega
        subst hj0
        decide)
      (by decide) (by decide),
   cmd_merge_failure_handling.2.1
      { mergelog := "/lg", treeHead := fun _ => "h0", commitDate := "cd",
        gitRes := fun _ => .raise "boom",
        patchRes := fun _ => .ret (), pwRes := fun _ => .ret (),
        kpath := "/k", buildinfo := "bi", commitHash := "ch" }
      { retcode := 0, cfg := [("merge_ref", Val.vrefs [["u0"], ["u1"]])],
        file := { hasStateSection := false, stateSection := [] },
        testcases := [], trace := [] }
      "boom" _ (by decide),
   cmd_merge_failure_handling.2.2 _ _ [] ["u0"] [["u1"]] "boom" (by decide)
      (by decide)
      (fun j hj => absurd hj (by simp))
      (by decide)⟩

theorem pval_append (acc : Nat) (l1 l2 : List Char) :
    pval acc (l1 ++ l2) = pval (pval acc l1) l2 := by
  induction l1 generalizing acc with
  | nil => rfl
  | cons c cs ih =>
    show pval (acc * 10 + digitVal c) (cs ++ l2)
      = pval (pval (acc * 10 + digitVal c) cs) l2
    exact ih _

theorem toDigitsCore_acc (fuel n : Nat) (ds : List Char) :
    Nat.toDigitsCore 10 fuel n ds = Nat.toDigitsCore 10 fuel n [] ++ ds := by
  induction fuel generalizing n ds with
  | zero => rfl
  | succ f ih =>
    show Nat.toDigitsCore 10 (f + 1) n ds = _
    rw [Nat.toDigitsCore]
    by_cases h : n / 10 = 0
    · simp only [h, if_pos rfl]
      rw [Nat.toDigitsCore]
      simp [h]
    · simp only [h, if_neg h]
      conv_rhs => rw [Nat.toDigitsCore]
      simp only [h, if_neg h]
      rw [ih (n / 10) (Nat.digitChar (n % 10) :: ds),
        ih (n / 10) [Nat.digitChar (n % 10)]]
      simp

theorem digitVal_digitChar (k : Nat) (h : k < 10) :
    digitVal (Nat.digitChar k) = k := by
  interval_cases k <;> rfl

set_option maxHeartbeats 1000000 in
theorem pval_toDigitsCore (fuel : Nat) : ∀ (n acc : Nat), n < 10 ^ fuel →
    pval acc (Nat.toDigitsCore 10 fuel n []) =
      acc * 10 ^ (Nat.toDigitsCore 10 fuel n []).length + n := by
  induction fuel with
  | zero =>
    intro n acc h
    rw [pow_zero] at h
    have hn : n = 0 := Nat.lt_one_iff.mp h
    subst hn
    show acc = acc * 10 ^ (List.length ([] : List Char)) + 0
    show acc = acc * 10 ^ 0 + 0
    rw [pow_zero]
    omega
  | succ f ih =>
    intro n acc h
    rw [Nat.toDigitsCore]
    by_cases hd : n / 10 = 0
    · have hn : n < 10 := by omega
      have hm : n % 10 = n := Nat.mod_eq_of_lt hn
      rw [if_pos hd]
      show acc * 10 + digitVal ((n % 10).digitChar)
        = acc * 10 ^ (List.length [(n % 10).digitChar]) + n
      rw [hm, digitVal_digitChar n hn]
      show acc * 10 + n = acc * 10 ^ 1 + n
      rw [pow_one]
    · rw [if_neg hd]
      rw [toDigitsCore_acc f (n / 10) [(n % 10).digitChar]]
      rw [pval_append]
      have hb : n / 10 < 10 ^ f := by
        have h10 : (0 : Nat) < 10 := by norm_num
        rw [Nat.div_lt_iff_lt_mul h10]
        calc n < 10 ^ (f + 1) := h
          _ = 10 ^ f * 10 := by rw [pow_succ]
      rw [ih (n / 10) acc hb]
      have hm10 : n % 10 < 10 := Nat.mod_lt _ (by norm_num)
      show (acc * 10 ^ (Nat.toDigitsCore 10 f (n / 10) []).length + n / 10) * 10
          + digitVal ((n % 10).digitChar)
        = acc * 10 ^ (List.length
            (Nat.toDigitsCore 10 f (n / 10) [] ++ [(n % 10).digitChar])) + n
      rw [digitVal_digitChar (n % 10) hm10, List.length_append]
      generalize (Nat.toDigitsCore 10 f (n / 10) []).length = L
      show (acc * 10 ^ L + n / 10) * 10 + n % 10
        = acc * 10 ^ (L + List.length [(n % 10).digitChar]) + n
      have hone : List.length [(n % 10).digitChar] = 1 := rfl
      rw [hone]
      have hnm : n / 10 * 10 + n % 10 = n := by omega
      calc (acc * 10 ^ L + n / 10) * 10 + n % 10
          = acc * 10 ^ L * 10 + (n / 10 * 10 + n % 10) := by ring
        _ = acc * 10 ^ L * 10 + n := by rw [hnm]
        _ = acc * 10 ^ (L + 1) + n := by rw [pow_succ, Nat.mul_assoc]

theorem pval_repr (n : Nat) : pval 0 (Nat.repr n).data = n := by
  have h1 : n < 10 ^ (n + 1) := by
    calc n < 10 ^ n := Nat.lt_pow_self (by norm_num) n
      _ ≤ 10 ^ (n + 1) := Nat.pow_le_pow_right (by norm_num) (Nat.le_succ n)
  have h2 : (Nat.repr n).data = Nat.toDigitsCore 10 (n + 1) n [] := rfl
  rw [h2, pval_toDigitsCore (n + 1) n 0 h1]
  simp

theorem pval_fmt02 (k : Nat) : pval 0 (fmt02 k).data = k := by
  unfold fmt02
  split_ifs with hlt
  · have hd : ("0" ++ toString k).data = '0' :: (toString k).data := rfl
    rw [hd]
    show pval (0 * 10 + digitVal '0') (toString k).data = k
    have hz : (0 * 10 + digitVal '0') = 0 := rfl
    rw [hz]
    exact pval_repr k
  · exact pval_repr k

theorem fmt02_inj {m n : Nat} (h : fmt02 m = fmt02 n) : m = n := by
  have hp := congrArg (fun t => pval 0 t.data) h
  simpa [pval_fmt02] using hp

theorem key_ne_of_getD {a b : String} (n : Nat)
    (h : a.data.getD n '?' ≠ b.data.getD n '?') : a ≠ b := by
  intro he
  subst he
  exact h rfl

theorem append_getD_lt (p x : String) (n : Nat) (h : n < p.data.length) :
    (p ++ x).data.getD n '?' = p.data.getD n '?' := by
  show (p.data ++ x.data).getD n '?' = p.data.getD n '?'
  exact List.getD_append _ _ _ _ h

theorem string_append_cancel (p x y : String)
    (h : (p ++ x : String) = p ++ y) : x = y := by
  cases x with
  | mk xd =>
    cases y with
    | mk yd =>
      have hd : p.data ++ xd = p.data ++ yd := congrArg String.data h
      exact congrArg String.mk (List.append_cancel_left hd)

theorem mergekey_ne_of_getD (p q x y : String) (n : Nat)
    (hp : n < p.data.length) (hq : n < q.data.length)
    (h : p.data.getD n '?' ≠ q.data.getD n '?') :
    (p ++ x : String) ≠ q ++ y := by
  apply key_ne_of_getD n
  rw [append_getD_lt p x n hp, append_getD_lt q y n hq]
  exact h

theorem append_ne_plain (q y a : String) (n : Nat)
    (hq : n < q.data.length)
    (h : q.data.getD n '?' ≠ a.data.getD n '?') :
    (q ++ y : String) ≠ a := by
  apply key_ne_of_getD n
  rw [append_getD_lt q y n hq]
  exact h

theorem append_fmt02_ne (p : String) (i j : Nat) (hij : i ≠ j) :
    (p ++ fmt02 i : String) ≠ p ++ fmt02 j := by
  intro h
  exact hij (fmt02_inj (string_append_cancel _ _ _ h))

theorem save_state_get_pair_fst (s : PState) (k1 k2 : String) (v1 v2 : Val)
    (h : k2 ≠ k1) :
    Cfg.get (save_state s [(k1, v1), (k2, v2)]).cfg k1 = v1 := by
  rw [save_state_cfg]
  show Cfg.get (Cfg.set (Cfg.set s.cfg k1 v1) k2 v2) k1 = v1
  rw [Cfg.get_set_ne _ _ _ _ h, Cfg.get_set_same]

theorem save_state_get_pair_snd (s : PState) (k1 k2 : String) (v1 v2 : Val) :
    Cfg.get (save_state s [(k1, v1), (k2, v2)]).cfg k2 = v2 := by
  rw [save_state_cfg]
  show Cfg.get (Cfg.set (Cfg.set s.cfg k1 v1) k2 v2) k2 = v2
  exact Cfg.get_set_same _ _ _

theorem save_state_mergelog_get_other (env : MergeEnv) (s : PState)
    (k : String) (hml : k ≠ "mergelog") :
    Cfg.get (save_state s [("mergelog", Val.vstr env.mergelog)]).cfg k
      = Cfg.get s.cfg k := by
  apply save_state_get_other
  intro kv hkv
  simp only [List.mem_cons, List.not_mem_nil, or_false] at hkv
  subst hkv
  exact fun he => hml he.symm

theorem mergeRefsLoop_get_keep (env : MergeEnv) (bhead : String)
    (refs : List (List String)) (idx : Nat) (utypes : List String)
    (s : PState) (k : String)
    (hk : ∀ j, idx ≤ j → k ≠ "mergerepo_" ++ fmt02 j
      ∧ k ≠ "mergehead_" ++ fmt02 j) :
    Cfg.get (mergeRefsLoop env bhead refs idx utypes s).stateOf.cfg k
      = Cfg.get s.cfg k := by
  induction refs generalizing idx utypes s with
  | nil => rfl
  | cons mb rest ih =>
    rw [mergeRefsLoop]
    have hpres : Cfg.get (save_state s
        [("mergerepo_" ++ fmt02 idx, Val.vstr (hd0 mb)),
         ("mergehead_" ++ fmt02 idx, Val.vstr bhead)]).cfg k
        = Cfg.get s.cfg k := by
      apply save_state_get_other
      intro kv hkv
      simp only [List.mem_cons, List.not_mem_nil, or_false] at hkv
      rcases hkv with h | h <;> subst h
      · exact fun he => (hk idx (Nat.le_refl idx)).1 he.symm
      · exact fun he => (hk idx (Nat.le_refl idx)).2 he.symm
    cases hg : env.gitRes idx with
    | raise e => exact hpres
    | ret code =>
      dsimp only
      by_cases hc : (code != 0) = true
      · rw [if_pos hc]
        exact hpres
      · rw [if_neg hc]
        rw [ih (idx + 1) (utypes ++ ["[git]"]) _
          (fun j hj => hk j (Nat.le_of_succ_le hj))]
        exact hpres

theorem patchLoop_get_keep (env : MergeEnv) (ps : List String) (idx : Nat)
    (s : PState) (k : String)
    (hk : ∀ j, k ≠ "localpatch_" ++ fmt02 j) :
    Cfg.get (patchLoop env ps idx s).stateOf.cfg k = Cfg.get s.cfg k := by
  induction ps generalizing idx s with
  | nil => rfl
  | cons p rest ih =>
    rw [patchLoop]
    have hpres : Cfg.get (save_state s
        [("localpatch_" ++ fmt02 idx, Val.vstr p)]).cfg k
        = Cfg.get s.cfg k := by
      apply save_state_get_other
      intro kv hkv
      simp only [List.mem_cons, List.not_mem_nil, or_false] at hkv
      subst hkv
      exact fun he => hk idx he.symm
    cases hg : env.patchRes idx with
    | raise e => exact hpres
    | ret u =>
      rw [ih (idx + 1) _]
      exact hpres

theorem pwLoop_get_keep (env : MergeEnv) (ps : List String) (idx : Nat)
    (s : PState) (k : String)
    (hk : ∀ j, k ≠ "patchwork_" ++ fmt02 j) :
    Cfg.get (pwLoop env ps idx s).stateOf.cfg k = Cfg.get s.cfg k := by
  induction ps generalizing idx s with
  | nil => rfl
  | cons p rest ih =>
    rw [pwLoop]
    have hpres : Cfg.get (save_state s
        [("patchwork_" ++ fmt02 idx, Val.vstr p)]).cfg k
        = Cfg.get s.cfg k := by
      apply save_state_get_other
      intro kv hkv
      simp only [List.mem_cons, List.not_mem_nil, or_false] at hkv
      subst hkv
      exact fun he => hk idx he.symm
    cases hg : env.pwRes idx with
    | raise e => exact hpres
    | ret u =>
      rw [ih (idx + 1) _]
      exact hpres

theorem patchPhase_get_ok (env : MergeEnv) (ps : List String) (b : Bool)
    (s s' : PState) (k : String)
    (hk : ∀ j, k ≠ "localpatch_" ++ fmt02 j)
    (h : (if b = true then patchLoop env ps 0 s else Outcome.ok s)
      = .ok s') : Cfg.get s'.cfg k = Cfg.get s.cfg k := by
  by_cases hb : b = true
  · rw [if_pos hb] at h
    have hkeep := patchLoop_get_keep env ps 0 s k hk
    rw [h] at hkeep
    exact hkeep
  · rw [if_neg hb] at h
    simp only [Outcome.ok.injEq] at h
    rw [← h]

theorem patchPhase_get_exn (env : MergeEnv) (ps : List String) (b : Bool)
    (s : PState) (e : String) (s' : PState) (k : String)
    (hk : ∀ j, k ≠ "localpatch_" ++ fmt02 j)
    (h : (if b = true then patchLoop env ps 0 s else Outcome.ok s)
      = .exn e s') : Cfg.get s'.cfg k = Cfg.get s.cfg k := by
  by_cases hb : b = true
  · rw [if_pos hb] at h
    have hkeep := patchLoop_get_keep env ps 0 s k hk
    rw [h] at hkeep
    exact hkeep
  · rw [if_neg hb] at h
    exact Outcome.noConfusion h

theorem pwPhase_get_ok (env : MergeEnv) (ps : List String) (b : Bool)
    (s s' : PState) (k : String)
    (hk : ∀ j, k ≠ "patchwork_" ++ fmt02 j)
    (h : (if b = true then pwLoop env ps 0 s else Outcome.ok s)
      = .ok s') : Cfg.get s'.cfg k = Cfg.get s.cfg k := by
  by_cases hb : b = true
  · rw [if_pos hb] at h
    have hkeep := pwLoop_get_keep env ps 0 s k hk
    rw [h] at hkeep
    exact hkeep
  · rw [if_neg hb] at h
    simp only [Outcome.ok.injEq] at h
    rw [← h]

theorem pwPhase_get_exn (env : MergeEnv) (ps : List String) (b : Bool)
    (s : PState) (e : String) (s' : PState) (k : String)
    (hk : ∀ j, k ≠ "patchwork_" ++ fmt02 j)
    (h : (if b = true then pwLoop env ps 0 s else Outcome.ok s)
      = .exn e s') : Cfg.get s'.cfg k = Cfg.get s.cfg k := by
  by_cases hb : b = true
  · rw [if_pos hb] at h
    have hkeep := pwLoop_get_keep env ps 0 s k hk
    rw [h] at hkeep
    exact hkeep
  · rw [if_neg hb] at h
    exact Outcome.noConfusion h

theorem mergeRefsLoop_records_entry (env : MergeEnv) (bhead : String)
    (r1 : List (List String)) (mb : List String) (r2 : List (List String))
    (idx : Nat) (utypes : List String) (s : PState)
    (h0 : ∀ j, j < r1.length → env.gitRes (idx + j) = .ret 0) :
    Cfg.get (mergeRefsLoop env bhead (r1 ++ mb :: r2)
        idx utypes s).stateOf.cfg
        ("mergerepo_" ++ fmt02 (idx + r1.length)) = .vstr (hd0 mb)
    ∧ Cfg.get (mergeRefsLoop env bhead (r1 ++ mb :: r2)
        idx utypes s).stateOf.cfg
        ("mergehead_" ++ fmt02 (idx + r1.length)) = .vstr bhead := by
  induction r1 generalizing idx utypes s with
  | nil =>
    simp only [List.nil_append, List.length_nil, Nat.add_zero]
    rw [mergeRefsLoop]
    have hfst := save_state_get_pair_fst s ("mergerepo_" ++ fmt02 idx)
        ("mergehead_" ++ fmt02 idx) (Val.vstr (hd0 mb)) (Val.vstr bhead)
        (mergekey_ne_of_getD "mergehead_" "mergerepo_" _ _ 5 (by decide)
          (by decide) (by decide))
    have hsnd := save_state_get_pair_snd s ("mergerepo_" ++ fmt02 idx)
        ("mergehead_" ++ fmt02 idx) (Val.vstr (hd0 mb)) (Val.vstr bhead)
    have hk1 : ∀ j, idx + 1 ≤ j →
        ("mergerepo_" ++ fmt02 idx : String) ≠ "mergerepo_" ++ fmt02 j
        ∧ ("mergerepo_" ++ fmt02 idx : String) ≠ "mergehead_" ++ fmt02 j := by
      intro j hj
      refine ⟨append_fmt02_ne _ _ _ (by omega), ?_⟩
      exact mergekey_ne_of_getD "mergerepo_" "mergehead_" _ _ 5 (by decide)
        (by decide) (by decide)
    have hk2 : ∀ j, idx + 1 ≤ j →
        ("mergehead_" ++ fmt02 idx : String) ≠ "mergerepo_" ++ fmt02 j
        ∧ ("mergehead_" ++ fmt02 idx : String) ≠ "mergehead_" ++ fmt02 j := by
      intro j hj
      refine ⟨?_, append_fmt02_ne _ _ _ (by omega)⟩
      exact mergekey_ne_of_getD "mergehead_" "mergerepo_" _ _ 5 (by decide)
        (by decide) (by decide)
    cases hg : env.gitRes idx with
    | raise e => exact ⟨hfst, hsnd⟩
    | ret code =>
      dsimp only
      by_cases hc : (code != 0) = true
      · rw [if_pos hc]
        exact ⟨hfst, hsnd⟩
      · rw [if_neg hc]
        constructor
        · rw [mergeRefsLoop_get_keep env bhead r2 (idx + 1) _ _ _ hk1]
          exact hfst
        · rw [mergeRefsLoop_get_keep env bhead r2 (idx + 1) _ _ _ hk2]
          exact hsnd
  | cons rv r1x ih =>
    have h00 : env.gitRes idx = .ret 0 := by
      have := h0 0 (by simp)
      simpa using this
    have h0x : ∀ j, j < r1x.length → env.gitRes (idx + 1 + j) = .ret 0 := by
      intro j hj
      have := h0 (j + 1) (by simpa using Nat.succ_lt_succ hj)
      rwa [show idx + (j + 1) = idx + 1 + j by omega] at this
    rw [show idx + (rv :: r1x).length = idx + 1 + r1x.length by
      simp
      omega]
    rw [List.cons_append, mergeRefsLoop]
    simp only [h00, bne_self_eq_false, Bool.false_eq_true, if_false]
    exact ih (idx + 1) (utypes ++ ["[git]"]) _ h0x

theorem cmd_merge_body_get_after_loop (env : MergeEnv) (s : PState)
    (k : String)
    (htest : Cfg.get s.cfg "test" = .vnone)
    (hml : k ≠ "mergelog") (hwd : k ≠ "workdir") (hbi : k ≠ "buildinfo")
    (hbh : k ≠ "buildhead") (huid : k ≠ "uid")
    (hlp : ∀ j, k ≠ "localpatch_" ++ fmt02 j)
    (hpwk : ∀ j, k ≠ "patchwork_" ++ fmt02 j) :
    Cfg.get (cmd_merge_body env s).stateOf.cfg k
      = Cfg.get (mergeRefsLoop env (env.treeHead 0)
          ((Cfg.get (save_state (pushCall s .checkout)
              [("baserepo", Cfg.get (pushCall s .checkout).cfg "baserepo"),
               ("basehead", .vstr (env.treeHead 0)),
               ("commitdate", .vstr env.commitDate)]).cfg
            "merge_ref").asRefs)
          0 []
          (save_state (pushCall s .checkout)
              [("baserepo", Cfg.get (pushCall s .checkout).cfg "baserepo"),
               ("basehead", .vstr (env.treeHead 0)),
               ("commitdate", .vstr env.commitDate)])).stateOf.cfg k := by
  have htb : (Cfg.get s.cfg "test" != Val.vnone) = false := by simp [htest]
  unfold cmd_merge_body
  rw [htb]
  simp only [Bool.false_eq_true, if_false]
  split
  next e3 s3 heq =>
    rw [heq]
    simp only [Outcome.stateOf, MergeLoopRes.stateOf]
    exact save_state_mergelog_get_other env s3 k hml
  next s3 heq =>
    rw [heq]
    rfl
  next s3 ut heq =>
    rw [heq]
    simp only [MergeLoopRes.stateOf]
    split
    next e4 s4 heq2 =>
      have h4 := patchPhase_get_exn env _ _ _ e4 s4 k hlp heq2
      simp only [Outcome.stateOf]
      rw [save_state_mergelog_get_other env s4 k hml, h4]
    next s4 heq2 =>
      have h4 := patchPhase_get_ok env _ _ _ s4 k hlp heq2
      split
      next e5 s5 heq3 =>
        have h5 := pwPhase_get_exn env _ _ _ e5 s5 k hpwk heq3
        simp only [Outcome.stateOf]
        rw [save_state_mergelog_get_other env s5 k hml, h5, h4]
      next s5 heq3 =>
        have h5 := pwPhase_get_ok env _ _ _ s5 k hpwk heq3
        have hfin : ∀ (w : String), Cfg.get (save_state s5
            [("workdir", Val.vstr env.kpath),
             ("buildinfo", Val.vstr env.buildinfo),
             ("buildhead", Val.vstr env.commitHash),
             ("uid", Val.vstr w)]).cfg k = Cfg.get s5.cfg k := by
          intro w
          apply save_state_get_other
          intro kv hkv
          simp only [List.mem_cons, List.not_mem_nil, or_false] at hkv
          rcases hkv with h | h | h | h <;> subst h
          · exact fun he => hwd he.symm
          · exact fun he => hbi he.symm
          · exact fun he => hbh he.symm
          · exact fun he => huid he.symm
        simp only [Outcome.stateOf]
        rw [hfin _, h5, h4]

/-- **C8 (counterexample).** With two merge-refs and a tree whose head
changes after the first merge (`treeHead 0 = "h0"`, `treeHead 1 = "h1"`),
the recorded `mergehead_01` is the original checkout head `"h0"`, not
the head `"h1"` of the tree immediately before the second merge: the
code captures `bhead` once at checkout and never refreshes it. -/
theorem cmd_merge_premerge_head_counterexample :
    Cfg.get (cmd_merge_body
      { mergelog := "/lg", treeHead := fun n => if n = 0 then "h0" else "h1",
        commitDate := "cd", gitRes := fun _ => .ret 0,
        patchRes := fun _ => .ret (), pwRes := fun _ => .ret (),
        kpath := "/k", buildinfo := "bi", commitHash := "ch" }
      { retcode := 0, cfg := [("merge_ref", Val.vrefs [["u0"], ["u1"]])],
        file := { hasStateSection := false, stateSection := [] },
        testcases := [], trace := [] }).stateOf.cfg "mergehead_01"
      = .vstr "h0"
    ∧ headBeforeMerge
      { mergelog := "/lg", treeHead := fun n => if n = 0 then "h0" else "h1",
        commitDate := "cd", gitRes := fun _ => .ret 0,
        patchRes := fun _ => .ret (), pwRes := fun _ => .ret (),
        kpath := "/k", buildinfo := "bi", commitHash := "ch" } 1 = "h1"
    ∧ Cfg.get (cmd_merge_body
      { mergelog := "/lg", treeHead := fun n => if n = 0 then "h0" else "h1",
        commitDate := "cd", gitRes := fun _ => .ret 0,
        patchRes := fun _ => .ret (), pwRes := fun _ => .ret (),
        kpath := "/k", buildinfo := "bi", commitHash := "ch" }
      { retcode := 0, cfg := [("merge_ref", Val.vrefs [["u0"], ["u1"]])],
        file := { hasStateSection := false, stateSection := [] },
        testcases := [], trace := [] }).stateOf.cfg "mergehead_01"
      ≠ .vstr (headBeforeMerge
      { mergelog := "/lg", treeHead := fun n => if n = 0 then "h0" else "h1",
        commitDate := "cd", gitRes := fun _ => .ret 0,
        patchRes := fun _ => .ret (), pwRes := fun _ => .ret (),
        kpath := "/k", buildinfo := "bi", commitHash := "ch" } 1) :=
  ⟨by decide, by decide, by decide⟩

/-- **C8 (amended).** For every position `i` of the configured
merge-ref sequence that the merge loop reaches (every earlier merge-ref
returned result 0), `mergerepo_i` records that ref's source URL and
`mergehead_i` records the head of the single initial `checkout()` — the
pre-merge head of the whole merge stage, identical for every `i` — not
the head of the tree immediately before the i-th merge is applied.
Stated for an arbitrary decomposition `r1 ++ mb :: r2` of the
configured sequence, whatever the i-th merge result and the later
phases do. -/
theorem cmd_merge_records_checkout_head (env : MergeEnv) (s : PState)
    (r1 : List (List String)) (mb : List String) (r2 : List (List String))
    (htest : Cfg.get s.cfg "test" = .vnone)
    (hrefs : (Cfg.get s.cfg "merge_ref").asRefs = r1 ++ mb :: r2)
    (h0 : ∀ j, j < r1.length → env.gitRes j = .ret 0) :
    Cfg.get (cmd_merge_body env s).stateOf.cfg
        ("mergerepo_" ++ fmt02 r1.length) = .vstr (hd0 mb)
    ∧ Cfg.get (cmd_merge_body env s).stateOf.cfg
        ("mergehead_" ++ fmt02 r1.length) = .vstr (env.treeHead 0) := by
  have hpres : (Cfg.get (save_state (pushCall s .checkout)
      [("baserepo", Cfg.get (pushCall s .checkout).cfg "baserepo"),
       ("basehead", .vstr (env.treeHead 0)),
       ("commitdate", .vstr env.commitDate)]).cfg "merge_ref").asRefs
      = r1 ++ mb :: r2 := by
    rw [save_state_get_other]
    · exact hrefs
    · intro kv hkv
      simp only [List.mem_cons, List.not_mem_nil, or_false] at hkv
      rcases hkv with h | h | h <;> subst h <;> simp +decide
  have h0z : ∀ j, j < r1.length → env.gitRes (0 + j) = .ret 0 := by
    intro j hj
    rw [Nat.zero_add]
    exact h0 j hj
  have hrec := mergeRefsLoop_records_entry env (env.treeHead 0) r1 mb r2 0 []
      (save_state (pushCall s .checkout)
        [("baserepo", Cfg.get (pushCall s .checkout).cfg "baserepo"),
         ("basehead", .vstr (env.treeHead 0)),
         ("commitdate", .vstr env.commitDate)]) h0z
  rw [Nat.zero_add] at hrec
  constructor
  · rw [cmd_merge_body_get_after_loop env s _ htest
        (append_ne_plain "mergerepo_" _ "mergelog" 5 (by decide) (by decide))
        (append_ne_plain "mergerepo_" _ "workdir" 0 (by decide) (by decide))
        (append_ne_plain "mergerepo_" _ "buildinfo" 0 (by decide) (by decide))
        (append_ne_plain "mergerepo_" _ "buildhead" 0 (by decide) (by decide))
        (append_ne_plain "mergerepo_" _ "uid" 0 (by decide) (by decide))
        (fun j => mergekey_ne_of_getD "mergerepo_" "localpatch_" _ _ 0
          (by decide) (by decide) (by decide))
        (fun j => mergekey_ne_of_getD "mergerepo_" "patchwork_" _ _ 0
          (by decide) (by decide) (by decide)),
      hpres]
    exact hrec.1
  · rw [cmd_merge_body_get_after_loop env s _ htest
        (append_ne_plain "mergehead_" _ "mergelog" 5 (by decide) (by decide))
        (append_ne_plain "mergehead_" _ "workdir" 0 (by decide) (by decide))
        (append_ne_plain "mergehead_" _ "buildinfo" 0 (by decide) (by decide))
        (append_ne_plain "mergehead_" _ "buildhead" 0 (by decide) (by decide))
        (append_ne_plain "mergehead_" _ "uid" 0 (by decide) (by decide))
        (fun j => mergekey_ne_of_getD "mergehead_" "localpatch_" _ _ 0
          (by decide) (by decide) (by decide))
        (fun j => mergekey_ne_of_getD "mergehead_" "patchwork_" _ _ 0
          (by decide) (by decide) (by decide)),
      hpres]
    exact hrec.2

/-- Witness for the amended C8 at a concrete two-ref merge whose tree
head changes between merges, applying the theorem at positions 0
(`r1 = []`) and 1 (`r1 = [["u0"]]`): the entries record the two source
URLs and every `mergehead_i` records the checkout head `"h0"`. -/
theorem cmd_merge_records_checkout_head_witness :
    Cfg.get (cmd_merge_body
      { mergelog := "/lg", treeHead := fun n => if n = 0 then "h0" else "h1",
        commitDate := "cd", gitRes := fun _ => .ret 0,
        patchRes := fun _ => .ret (), pwRes := fun _ => .ret (),
        kpath := "/k", buildinfo := "bi", commitHash := "ch" }
      { retcode := 0, cfg := [("merge_ref", Val.vrefs [["u0"], ["u1"]])],
        file := { hasStateSection := false, stateSection := [] },
        testcases := [], trace := [] }).stateOf.cfg "mergerepo_00"
      = .vstr "u0"
    ∧ Cfg.get (cmd_merge_body
      { mergelog := "/lg", treeHead := fun n => if n = 0 then "h0" else "h1",
        commitDate := "cd", gitRes := fun _ => .ret 0,
        patchRes := fun _ => .ret (), pwRes := fun _ => .ret (),
        kpath := "/k", buildinfo := "bi", commitHash := "ch" }
      { retcode := 0, cfg := [("merge_ref", Val.vrefs [["u0"], ["u1"]])],
        file := { hasStateSection := false, stateSection := [] },
        testcases := [], trace := [] }).stateOf.cfg "mergehead_00"
      = .vstr "h0"
    ∧ Cfg.get (cmd_merge_body
      { mergelog := "/lg", treeHead := fun n => if n = 0 then "h0" else "h1",
        commitDate := "cd", gitRes := fun _ => .ret 0,
        patchRes := fun _ => .ret (), pwRes := fun _ => .ret (),
        kpath := "/k", buildinfo := "bi", commitHash := "ch" }
      { retcode := 0, cfg := [("merge_ref", Val.vrefs [["u0"], ["u1"]])],
        file := { hasStateSection := false, stateSection := [] },
        testcases := [], trace := [] }).stateOf.cfg "mergerepo_01"
      = .vstr "u1"
    ∧ Cfg.get (cmd_merge_body
      { mergelog := "/lg", treeHead := fun n => if n = 0 then "h0" else "h1",
        commitDate := "cd", gitRes := fun _ => .ret 0,
        patchRes := fun _ => .ret (), pwRes := fun _ => .ret (),
        kpath := "/k", buildinfo := "bi", commitHash := "ch" }
      { retcode := 0, cfg := [("merge_ref", Val.vrefs [["u0"], ["u1"]])],
        file := { hasStateSection := false, stateSection := [] },
        testcases := [], trace := [] }).stateOf.cfg "mergehead_01"
      = .vstr "h0" := by
  have h1 := cmd_merge_records_checkout_head
      { mergelog := "/lg", treeHead := fun n => if n = 0 then "h0" else "h1",
        commitDate := "cd", gitRes := fun _ => .ret 0,
        patchRes := fun _ => .ret (), pwRes := fun _ => .ret (),
        kpath := "/k", buildinfo := "bi", commitHash := "ch" }
      { retcode := 0, cfg := [("merge_ref", Val.vrefs [["u0"], ["u1"]])],
        file := { hasStateSection := false, stateSection := [] },
        testcases := [], trace := [] }
      [] ["u0"] [["u1"]] (by decide) (by decide)
      (fun j hj => absurd hj (by simp))
  have h2 := cmd_merge_records_checkout_head
      { mergelog := "/lg", treeHead := fun n => if n = 0 then "h0" else "h1",
        commitDate := "cd", gitRes := fun _ => .ret 0,
        patchRes := fun _ => .ret (), pwRes := fun _ => .ret (),
        kpath := "/k", buildinfo := "bi", commitHash := "ch" }
      { retcode := 0, cfg := [("merge_ref", Val.vrefs [["u0"], ["u1"]])],
        file := { hasStateSection := false, stateSection := [] },
        testcases := [], trace := [] }
      [["u0"]] ["u1"] [] (by decide) (by decide)
      (by
        intro j hj
        have hj0 : j = 0 := by
          simp only [List.length_cons, List.length_nil] at hj
          omega
        subst hj0
        decide)
  simp only [List.length_nil] at h1
  simp only [List.length_cons, List.length_nil, Nat.zero_add] at h2
  rw [show ("mergerepo_" ++ fmt02 0 : String) = "mergerepo_00" by decide,
    show ("mergehead_" ++ fmt02 0 : String) = "mergehead_00" by decide] at h1
  rw [show ("mergerepo_" ++ fmt02 1 : String) = "mergerepo_01" by decide,
    show ("mergehead_" ++ fmt02 1 : String) = "mergehead_01" by decide] at h2
  exact ⟨h1.1, h1.2, h2.1, h2.2⟩

theorem pushCallIf_cfg (b : Bool) (c : Call) (s : PState) :
    (pushCallIf b c s).cfg = s.cfg := by
  unfold pushCallIf pushCall
  split_ifs <;> rfl

theorem pushCallIf_retcode (b : Bool) (c : Call) (s : PState) :
    (pushCallIf b c s).retcode = s.retcode := by
  unfold pushCallIf pushCall
  split_ifs <;> rfl

theorem pushCallIf_testcases (b : Bool) (c : Call) (s : PState) :
    (pushCallIf b c s).testcases = s.testcases := by
  unfold pushCallIf pushCall
  split_ifs <;> rfl

theorem step_testcases (s : PState) (ups : List (String × Val)) (c : Call) :
    (pushCall (save_state s ups) c).testcases = s.testcases := by
  simp [pushCall, save_state_testcases]

theorem patchLoop_testcases (env : MergeEnv) (ps : List String) (idx : Nat)
    (s : PState) :
    (∀ s', patchLoop env ps idx s = .ok s' → s'.testcases = s.testcases)
    ∧ (∀ e s', patchLoop env ps idx s = .exn e s' →
        s'.testcases = s.testcases) := by
  induction ps generalizing idx s with
  | nil =>
    constructor
    · intro s' h
      rw [patchLoop] at h
      simp only [Outcome.ok.injEq] at h
      rw [← h]
    · intro e s' h
      rw [patchLoop] at h
      exact Outcome.noConfusion h
  | cons p rest ih =>
    constructor
    · intro s' h
      rw [patchLoop] at h
      cases hr : env.patchRes idx with
      | ret u =>
        simp only [hr] at h
        rw [(ih (idx + 1) _).1 s' h, step_testcases]
      | raise e2 =>
        simp only [hr] at h
        exact Outcome.noConfusion h
    · intro e s' h
      rw [patchLoop] at h
      cases hr : env.patchRes idx with
      | ret u =>
        simp only [hr] at h
        rw [(ih (idx + 1) _).2 e s' h, step_testcases]
      | raise e2 =>
        simp only [hr, Outcome.exn.injEq] at h
        rw [← h.2, step_testcases]

theorem pwLoop_testcases (env : MergeEnv) (ps : List String) (idx : Nat)
    (s : PState) :
    (∀ s', pwLoop env ps idx s = .ok s' → s'.testcases = s.testcases)
    ∧ (∀ e s', pwLoop env ps idx s = .exn e s' →
        s'.testcases = s.testcases) := by
  induction ps generalizing idx s with
  | nil =>
    constructor
    · intro s' h
      rw [pwLoop] at h
      simp only [Outcome.ok.injEq] at h
      rw [← h]
    · intro e s' h
      rw [pwLoop] at h
      exact Outcome.noConfusion h
  | cons p rest ih =>
    constructor
    · intro s' h
      rw [pwLoop] at h
      cases hr : env.pwRes idx with
      | ret u =>
        simp only [hr] at h
        rw [(ih (idx + 1) _).1 s' h, step_testcases]
      | raise e2 =>
        simp only [hr] at h
        exact Outcome.noConfusion h
    · intro e s' h
      rw [pwLoop] at h
      cases hr : env.pwRes idx with
      | ret u =>
        simp only [hr] at h
        rw [(ih (idx + 1) _).2 e s' h, step_testcases]
      | raise e2 =>
        simp only [hr, Outcome.exn.injEq] at h
        rw [← h.2, step_testcases]

theorem mergeRefsLoop_testcases (env : MergeEnv) (bhead : String)
    (refs : List (List String)) (idx : Nat) (utypes : List String)
    (s : PState) :
    (∀ s' ut, mergeRefsLoop env bhead refs idx utypes s = .done s' ut →
       s'.testcases = s.testcases)
    ∧ (∀ s', mergeRefsLoop env bhead refs idx utypes s = .earlyRet s' →
       s'.testcases = s.testcases)
    ∧ (∀ e s', mergeRefsLoop env bhead refs idx utypes s = .raised e s' →
       s'.testcases = s.testcases) := by
  induction refs generalizing idx utypes s with
  | nil =>
    refine ⟨?_, ?_, ?_⟩
    · intro s' ut h
      rw [mergeRefsLoop] at h
      simp only [MergeLoopRes.done.injEq] at h
      rw [← h.1]
    · intro s' h
      rw [mergeRefsLoop] at h
      exact MergeLoopRes.noConfusion h
    · intro e s' h
      rw [mergeRefsLoop] at h
      exact MergeLoopRes.noConfusion h
  | cons mb rest ih =>
    have hstep : ∀ (code : Int),
        ({ pushCall (save_state s
            [("mergerepo_" ++ fmt02 idx, Val.vstr (hd0 mb)),
             ("mergehead_" ++ fmt02 idx, Val.vstr bhead)])
            (Call.mergeGitRef (hd0 mb)) with
          retcode := code } : PState).testcases = s.testcases := by
      intro code
      simp [pushCall, save_state_testcases]
    refine ⟨?_, ?_, ?_⟩
    · intro s' ut h
      rw [mergeRefsLoop] at h
      cases hr : env.gitRes idx with
      | ret code =>
        simp only [hr] at h
        by_cases hcb : (code != 0) = true
        · rw [if_pos hcb] at h
          exact MergeLoopRes.noConfusion h
        · rw [if_neg hcb] at h
          rw [(ih (idx + 1) (utypes ++ ["[git]"]) _).1 s' ut h, hstep]
      | raise e2 =>
        simp only [hr] at h
        exact MergeLoopRes.noConfusion h
    · intro s' h
      rw [mergeRefsLoop] at h
      cases hr : env.gitRes idx with
      | ret code =>
        simp only [hr] at h
        by_cases hcb : (code != 0) = true
        · rw [if_pos hcb] at h
          simp only [MergeLoopRes.earlyRet.injEq] at h
          rw [← h, hstep]
        · rw [if_neg hcb] at h
          rw [(ih (idx + 1) (utypes ++ ["[git]"]) _).2.1 s' h, hstep]
      | raise e2 =>
        simp only [hr] at h
        exact MergeLoopRes.noConfusion h
    · intro e s' h
      rw [mergeRefsLoop] at h
      cases hr : env.gitRes idx with
      | ret code =>
        simp only [hr] at h
        by_cases hcb : (code != 0) = true
        · rw [if_pos hcb] at h
          exact MergeLoopRes.noConfusion h
        · rw [if_neg hcb] at h
          rw [(ih (idx + 1) (utypes ++ ["[git]"]) _).2.2 e s' h, hstep]
      | raise e2 =>
        simp only [hr, MergeLoopRes.raised.injEq] at h
        rw [← h.2, step_testcases]

theorem patchPhase_testcases_ok (env : MergeEnv) (ps : List String)
    (b : Bool) (s s' : PState)
    (h : (if b = true then patchLoop env ps 0 s else Outcome.ok s)
      = .ok s') : s'.testcases = s.testcases := by
  by_cases hb : b = true
  · rw [if_pos hb] at h
    exact (patchLoop_testcases env ps 0 s).1 s' h
  · rw [if_neg hb] at h
    simp only [Outcome.ok.injEq] at h
    rw [← h]

theorem patchPhase_testcases_exn (env : MergeEnv) (ps : List String)
    (b : Bool) (s : PState) (e : String) (s' : PState)
    (h : (if b = true then patchLoop env ps 0 s else Outcome.ok s)
      = .exn e s') : s'.testcases = s.testcases := by
  by_cases hb : b = true
  · rw [if_pos hb] at h
    exact (patchLoop_testcases env ps 0 s).2 e s' h
  · rw [if_neg hb] at h
    exact Outcome.noConfusion h

theorem pwPhase_testcases_ok (env : MergeEnv) (ps : List String)
    (b : Bool) (s s' : PState)
    (h : (if b = true then pwLoop env ps 0 s else Outcome.ok s)
      = .ok s') : s'.testcases = s.testcases := by
  by_cases hb : b = true
  · rw [if_pos hb] at h
    exact (pwLoop_testcases env ps 0 s).1 s' h
  · rw [if_neg hb] at h
    simp only [Outcome.ok.injEq] at h
    rw [← h]

theorem pwPhase_testcases_exn (env : MergeEnv) (ps : List String)
    (b : Bool) (s : PState) (e : String) (s' : PState)
    (h : (if b = true then pwLoop env ps 0 s else Outcome.ok s)
      = .exn e s') : s'.testcases = s.testcases := by
  by_cases hb : b = true
  · rw [if_pos hb] at h
    exact (pwLoop_testcases env ps 0 s).2 e s' h
  · rw [if_neg hb] at h
    exact Outcome.noConfusion h

theorem cmd_merge_body_testcases (env : MergeEnv) (s : PState) :
    (cmd_merge_body env s).stateOf.testcases = s.testcases := by
  unfold cmd_merge_body
  dsimp only
  split
  · split <;> simp [Outcome.stateOf, save_state_testcases]
  · split
    next e3 s3 heq =>
      have h3 := (mergeRefsLoop_testcases env _ _ 0 [] _).2.2 e3 s3 heq
      simp [Outcome.stateOf, save_state_testcases, pushCall, h3]
    next s3 heq =>
      have h3 := (mergeRefsLoop_testcases env _ _ 0 [] _).2.1 s3 heq
      simp [Outcome.stateOf, save_state_testcases, pushCall, h3]
    next s3 ut heq =>
      have h3 := (mergeRefsLoop_testcases env _ _ 0 [] _).1 s3 ut heq
      split
      next e4 s4 heq2 =>
        have h4 := patchPhase_testcases_exn env _ _ _ e4 s4 heq2
        simp [Outcome.stateOf, save_state_testcases, pushCall, h4, h3]
      next s4 heq2 =>
        have h4 := patchPhase_testcases_ok env _ _ _ s4 heq2
        split
        next e5 s5 heq3 =>
          have h5 := pwPhase_testcases_exn env _ _ _ e5 s5 heq3
          simp [Outcome.stateOf, save_state_testcases, pushCall, h5, h4, h3]
        next s5 heq3 =>
          have h5 := pwPhase_testcases_ok env _ _ _ s5 heq3
          simp [Outcome.stateOf, save_state_testcases, pushCall, h5, h4, h3]

theorem cmd_build_body_testcases (env : BuildEnv) (ts : String)
    (s : PState) :
    (cmd_build_body env ts s).stateOf.testcases = s.testcases := by
  unfold cmd_build_body
  dsimp only
  split
  · split <;> simp [Outcome.stateOf, save_state_testcases]
  · split
    · simp [Outcome.stateOf, save_state_testcases, pushCall,
        pushCallIf_testcases]
    · simp [Outcome.stateOf, save_state_testcases, pushCall,
        pushCallIf_testcases]

theorem cmd_publish_body_testcases (env : PubEnv) (s : PState) :
    (cmd_publish_body env s).stateOf.testcases = s.testcases := by
  unfold cmd_publish_body
  dsimp only
  split
  · rfl
  · split
    · rfl
    · split
      · simp [Outcome.stateOf, save_state_testcases]
      · simp [Outcome.stateOf, save_state_testcases, pushCall,
          pushCallIf_testcases]

theorem cmd_run_body_testcases (pe : PubEnv) (re : RunEnv) (s : PState) :
    (cmd_run_body pe re s).stateOf.testcases = s.testcases := by
  unfold cmd_run_body
  dsimp only
  split
  · simp [Outcome.stateOf, save_state_testcases]
  · split
    · rfl
    · split
      · split <;>
          simp [Outcome.stateOf, save_state_testcases, jobsLoop_testcases,
            pushCall]
      · simp [Outcome.stateOf, save_state_testcases, jobsLoop_testcases,
          pushCall]

theorem cmd_report_body_testcases (env : ReportEnv) (s : PState) :
    (cmd_report_body env s).stateOf.testcases = s.testcases := by
  unfold cmd_report_body
  split_ifs <;> rfl

/-- **C9 (counterexample).** With structured reporting enabled, an
invocation of the report stage that really delegates to the reporter
(and one of cleanup) appends no TestCaseRecord at all: `cmd_report` and
`cmd_cleanup` are not decorated with `@junit`. -/
theorem cmd_report_no_record_counterexample :
    (Cfg.get ([("junit", Val.vstr "dir"),
               ("reporter", Val.vstrs ["stdio"])] : Cfg) "junit").truthy
      = true
    ∧ (cmd_report_body { reporterResolves := true }
        { retcode := 0,
          cfg := [("junit", Val.vstr "dir"), ("reporter", Val.vstrs ["stdio"])],
          file := { hasStateSection := false, stateSection := [] },
          testcases := [], trace := [] }).isOk = true
    ∧ Call.report ∈ (cmd_report_body { reporterResolves := true }
        { retcode := 0,
          cfg := [("junit", Val.vstr "dir"), ("reporter", Val.vstrs ["stdio"])],
          file := { hasStateSection := false, stateSection := [] },
          testcases := [], trace := [] }).stateOf.trace
    ∧ (cmd_report_body { reporterResolves := true }
        { retcode := 0,
          cfg := [("junit", Val.vstr "dir"), ("reporter", Val.vstrs ["stdio"])],
          file := { hasStateSection := false, stateSection := [] },
          testcases := [], trace := [] }).stateOf.testcases = []
    ∧ (cmd_cleanup_body
        { retcode := 0,
          cfg := [("junit", Val.vstr "dir"), ("reporter", Val.vstrs ["stdio"])],
          file := { hasStateSection := false, stateSection := [] },
          testcases := [], trace := [] }).stateOf.testcases = [] :=
  ⟨by decide, by decide, by decide, by decide, by decide⟩

/-- **C9 (amended).** With structured reporting enabled, each invocation
of the four `@junit`-wrapped stages (merge, build, publish, run)
appends exactly one TestCaseRecord — carrying the stage name, the
elapsed time, and a serialized snapshot of the full State — to the
shared ordered list, regardless of outcome; the stage bodies themselves
never modify the list; and the report and cleanup stages, which are not
wrapped, append none. -/
theorem pipeline_testcase_records :
    (∀ (nm : String) (t : Int) (body : PState → Outcome) (s s1 : PState),
       (Cfg.get s.cfg "junit").truthy = true →
       body s = .ok s1 →
       ∃ tc, junitWrap nm t body s
           = .ok { s1 with testcases := s1.testcases ++ [tc] }
         ∧ tc.name = nm ∧ tc.classname = "skt"
         ∧ tc.stdoutSnap = some s1.cfg ∧ tc.elapsed = t)
    ∧ (∀ (nm : String) (t : Int) (body : PState → Outcome) (s : PState)
         (e : String) (s1 : PState),
       (Cfg.get s.cfg "junit").truthy = true →
       body s = .exn e s1 →
       ∃ tc, junitWrap nm t body s
           = .ok { s1 with
              retcode := 1,
              testcases := s1.testcases ++ [tc] }
         ∧ tc.name = nm ∧ tc.classname = "skt"
         ∧ tc.stdoutSnap = some s1.cfg ∧ tc.elapsed = t)
    ∧ (∀ (env : MergeEnv) (s : PState),
        (cmd_merge_body env s).stateOf.testcases = s.testcases)
    ∧ (∀ (env : BuildEnv) (ts : String) (s : PState),
        (cmd_build_body env ts s).stateOf.testcases = s.testcases)
    ∧ (∀ (env : PubEnv) (s : PState),
        (cmd_publish_body env s).stateOf.testcases = s.testcases)
    ∧ (∀ (pe : PubEnv) (re : RunEnv) (s : PState),
        (cmd_run_body pe re s).stateOf.testcases = s.testcases)
    ∧ (∀ (env : ReportEnv) (s : PState),
        (cmd_report_body env s).stateOf.testcases = s.testcases)
    ∧ (∀ s, (cmd_cleanup_body s).stateOf.testcases = s.testcases) := by
  refine ⟨?_, ?_, cmd_merge_body_testcases, cmd_build_body_testcases,
    cmd_publish_body_testcases, cmd_run_body_testcases,
    cmd_report_body_testcases, cmd_cleanup_testcases⟩
  · intro nm t body s s1 hj hb
    by_cases hrc : s1.retcode = 0
    · refine ⟨⟨nm, "skt", [], some s1.cfg, t⟩, ?_, rfl, rfl, rfl, rfl⟩
      simp [junitWrap, hj, hb, hrc, TestCase.isFailure]
    · refine ⟨⟨nm, "skt",
        ["Step finished with retcode: " ++ toString s1.retcode],
        some s1.cfg, t⟩, ?_, rfl, rfl, rfl, rfl⟩
      simp [junitWrap, hj, hb, hrc, TestCase.isFailure,
        TestCase.addFailureInfo, bne_iff_ne]
  · intro nm t body s e s1 hj hb
    refine ⟨⟨nm, "skt", [e], some s1.cfg, t⟩, ?_, rfl, rfl, rfl, rfl⟩
    simp [junitWrap, hj, hb, TestCase.isFailure, TestCase.addFailureInfo]

/-- Witness for the amended C9: one record appended for a normally
returning body and for a raising body, at concrete states. -/
theorem pipeline_testcase_records_witness :
    (∃ tc, junitWrap "stage" 3 (fun s => Outcome.ok s)
        { retcode := 0, cfg := [("junit", Val.vstr "dir")],
          file := { hasStateSection := false, stateSection := [] },
          testcases := [], trace := [] }
        = .ok { retcode := 0, cfg := [("junit", Val.vstr "dir")],
                file := { hasStateSection := false, stateSection := [] },
                testcases := [] ++ [tc], trace := [] }
      ∧ tc.name = "stage" ∧ tc.classname = "skt"
      ∧ tc.stdoutSnap = some [("junit", Val.vstr "dir")] ∧ tc.elapsed = 3)
    ∧ (∃ tc, junitWrap "stage" 3 (fun s => Outcome.exn "boom" s)
        { retcode := 0, cfg := [("junit", Val.vstr "dir")],
          file := { hasStateSection := false, stateSection := [] },
          testcases := [], trace := [] }
        = .ok { retcode := 1, cfg := [("junit", Val.vstr "dir")],
                file := { hasStateSection := false, stateSection := [] },
                testcases := [] ++ [tc], trace := [] }
      ∧ tc.name = "stage" ∧ tc.classname = "skt"
      ∧ tc.stdoutSnap = some [("junit", Val.vstr "dir")] ∧ tc.elapsed = 3)
    ∧ (cmd_report_body { reporterResolves := true }
        { retcode := 0, cfg := [("junit", Val.vstr "dir")],
          file := { hasStateSection := false, stateSection := [] },
          testcases := [], trace := [] }).stateOf.testcases = [] :=
  ⟨pipeline_testcase_records.1 "stage" 3 _ _ _ (by decide) rfl,
   pipeline_testcase_records.2.1 "stage" 3 _ _ "boom" _ (by decide) rfl,
   pipeline_testcase_records.2.2.2.2.2.2.1 { reporterResolves := true } _⟩

/-- **C10 (counterexample).** The claim fails when the stage function
itself resets the shared code: with `retcode = 1` at invocation and the
real run stage whose runner returns 0, the stage returns normally, the
shared code is reassigned to 0 by `cmd_run` itself, and the appended
record is NOT marked failed. -/
theorem junit_failed_marking_counterexample :
    ({ retcode := 1,
       cfg := [("junit", Val.vstr "dir"),
               ("runner", Val.vstrs ["beaker", "rcfg"]),
               ("buildurl", Val.vstr "b")],
       file := { hasStateSection := false, stateSection := [] },
       testcases := [], trace := [] } : PState).retcode = 1
    ∧ (cmd_run_body { publishUrl := fun p => p, geturl := fun f => f }
        { runRes := 0, jobs := [], mfhost := "h", baseRunRes := 0 }
        { retcode := 1,
          cfg := [("junit", Val.vstr "dir"),
                  ("runner", Val.vstrs ["beaker", "rcfg"]),
                  ("buildurl", Val.vstr "b")],
          file := { hasStateSection := false, stateSection := [] },
          testcases := [], trace := [] }).isOk = true
    ∧ ((junitWrap "cmd_run" 0
        (cmd_run_body { publishUrl := fun p => p, geturl := fun f => f }
          { runRes := 0, jobs := [], mfhost := "h", baseRunRes := 0 })
        { retcode := 1,
          cfg := [("junit", Val.vstr "dir"),
                  ("runner", Val.vstrs ["beaker", "rcfg"]),
                  ("buildurl", Val.vstr "b")],
          file := { hasStateSection := false, stateSection := [] },
          testcases := [], trace := [] }).stateOf.testcases.map
        TestCase.isFailure) = [false] :=
  ⟨by decide, by decide, by decide⟩

/-- **C10 (amended).** With structured reporting enabled, a wrapped
stage whose body returns normally and leaves the shared result code
non-zero gets its TestCaseRecord marked failed with a description
containing the code, and the wrapper itself never resets the code (the
resulting state keeps the body's code).  Stage functions themselves
(run, merge) may reassign the shared code, so a stage that resets it to
zero yields a passing record. -/
theorem junit_nonzero_code_marks_failed (nm : String) (t : Int)
    (body : PState → Outcome) (s s1 : PState)
    (hj : (Cfg.get s.cfg "junit").truthy = true)
    (hb : body s = .ok s1)
    (hrc : s1.retcode ≠ 0) :
    junitWrap nm t body s = .ok
      { s1 with
         testcases := s1.testcases ++
           [⟨nm, "skt",
             ["Step finished with retcode: " ++ toString s1.retcode],
             some s1.cfg, t⟩] } := by
  simp [junitWrap, hj, hb, TestCase.isFailure, TestCase.addFailureInfo,
    bne_iff_ne, hrc]

/-- Witness for the amended C10: a body leaving the shared code at 7
yields one failed record naming the code, and the code stays 7. -/
theorem junit_nonzero_code_marks_failed_witness :
    junitWrap "stage" 2
      (fun _ => Outcome.ok
        { retcode := 7, cfg := [("junit", Val.vstr "dir")],
          file := { hasStateSection := false, stateSection := [] },
          testcases := [], trace := [] })
      { retcode := 0, cfg := [("junit", Val.vstr "dir")],
        file := { hasStateSection := false, stateSection := [] },
        testcases := [], trace := [] }
      = .ok
      { retcode := 7, cfg := [("junit", Val.vstr "dir")],
        file := { hasStateSection := false, stateSection := [] },
        testcases := [] ++
          [⟨"stage", "skt",
            ["Step finished with retcode: " ++ toString (7 : Int)],
            some [("junit", Val.vstr "dir")], 2⟩],
        trace := [] } :=
  junit_nonzero_code_marks_failed "stage" 2 _ _
    { retcode := 7, cfg := [("junit", Val.vstr "dir")],
      file := { hasStateSection := false, stateSection := [] },
      testcases := [], trace := [] }
    (by decide) rfl (by decide)

end Skt
